import Mathlib

/-!
Verification development for the hotsweep repository's core transfer engine.

The model is a shallow embedding of the TypeScript sources:
- packages/core/src/address/parser.ts  (address specification parsing/resolution)
- packages/core/src/transfer/strategy.ts  (strategy detection, cache, and the
  transfer orchestrator executeTransfer / executeSingleTransfer)
- packages/core/src/config/loader.ts  (toCaip2ChainId, getTokenConfig)

JavaScript machine integers (bigint balances, array indices) are modelled as
Nat / Int.  External library calls (viem RPC client calls, parseUnits,
formatUnits, address checksum validation, HD key derivation) are modelled as
oracle fields of an environment record: each RPC call site of the source
corresponds to one oracle field that yields either the call's result or a
thrown-error message.  Chain interactions are additionally recorded in an
effect trace so that purity properties (dry run, failure before submission)
are statable.
-/

namespace HotSweep

/-! ## JavaScript string primitives used by the sources -/

/-- Model of JS String.prototype.toLowerCase for the ASCII strings
(hex addresses, symbols) the code applies it to.  Implemented over the
character list so that concrete instances reduce in the kernel. -/
def toLowerAscii (s : String) : String := ⟨s.data.map Char.toLower⟩

/-- Model of JS String.prototype.toUpperCase for ASCII strings. -/
def toUpperAscii (s : String) : String := ⟨s.data.map Char.toUpper⟩

/-- Model of JS String.prototype.trim on the character list. -/
def trimList (cs : List Char) : List Char :=
  ((cs.dropWhile Char.isWhitespace).reverse.dropWhile Char.isWhitespace).reverse

/-- Model of JS String.prototype.trim. -/
def jsTrim (s : String) : String := ⟨trimList s.data⟩

/-- Split a character list at every occurrence of the separator; the JS
String.prototype.split semantics for a one-character separator
("".split gives [""], trailing separators give a trailing ""). -/
def splitChar (sep : Char) : List Char → List (List Char)
  | [] => [[]]
  | c :: cs =>
    let r := splitChar sep cs
    if c = sep then [] :: r
    else
      match r with
      | [] => [[c]]
      | h :: t => (c :: h) :: t

/-- Model of JS s.split(sep) for a one-character separator. -/
def jsSplit (s : String) (sep : Char) : List String :=
  (splitChar sep s.data).map (fun cs => ⟨cs⟩)

/-- Model of JS s.includes(c) for a one-character needle. -/
def strContains (s : String) (c : Char) : Bool := s.data.contains c

/-- Value of a list of decimal digit characters. -/
def digitsToNat (cs : List Char) : Nat :=
  cs.foldl (fun a c => a * 10 + (c.toNat - 48)) 0

/-- Leading decimal digits of a character list; none when the first
character is not a digit (JS parseInt yields NaN then). -/
def parseLeadingDigits (cs : List Char) : Option Nat :=
  let ds := cs.takeWhile Char.isDigit
  if ds.isEmpty then none else some (digitsToNat ds)

/-- Model of JS parseInt(s, 10): skip leading whitespace, optional sign,
read leading digits, ignore the rest; none models NaN. -/
def jsParseInt (s : String) : Option Int :=
  match s.data.dropWhile Char.isWhitespace with
  | '-' :: rest => (parseLeadingDigits rest).map (fun n => -(n : Int))
  | '+' :: rest => (parseLeadingDigits rest).map (fun n => (n : Int))
  | cs => (parseLeadingDigits cs).map (fun n => (n : Int))

/-! ## Error model (packages/types/src/errors.types.ts) -/

/-- The error codes of ErrorCodes that the modelled code paths raise. -/
inductive ErrorCode where
  | CHAIN_NOT_FOUND
  | TOKEN_NOT_FOUND
  | WALLET_KEY_NOT_FOUND
  | TRANSFER_INSUFFICIENT_BALANCE
  | TRANSFER_FAILED
  | STRATEGY_UNSUPPORTED
  | ADDRESS_RANGE_INVALID
  | ADDRESS_LABEL_NOT_FOUND
  | VALIDATION_ERROR
deriving DecidableEq, Repr

/-- A thrown HotSweepError: code plus human-readable message. -/
structure HSError where
  code : ErrorCode
  message : String
deriving DecidableEq, Repr

/-! ## Strategy enumeration (packages/types/src/common.types.ts) -/

/-- SweepStrategy = "auto" | "eip7702" | "eip2612" | "eip3009" | "legacy". -/
inductive SweepStrategy where
  | auto
  | eip7702
  | eip2612
  | eip3009
  | legacy
deriving DecidableEq, Repr

/-- The TS string value of a strategy (used in interpolated messages). -/
def SweepStrategy.str : SweepStrategy → String
  | .auto => "auto"
  | .eip7702 => "eip7702"
  | .eip2612 => "eip2612"
  | .eip3009 => "eip3009"
  | .legacy => "legacy"

/-- NATIVE_TOKEN_ADDRESS constant of packages/types. -/
def NATIVE_TOKEN_ADDRESS : String := "0xEeeeeEeeeEeEeeEeEeEeeEEEeeeeEeeeeeeeEEeE"

/-! ## Sorted de-duplication

Models `[...new Set(xs)].sort((a, b) => a - b)`: the strictly ascending list
of the distinct elements of the input.  Implemented by ordered insertion;
the lemmas below pin it extensionally (same members, strictly sorted). -/

/-- Insert an integer into a strictly ascending list, skipping duplicates. -/
def insertAsc (x : Int) : List Int → List Int
  | [] => [x]
  | y :: ys =>
    if x < y then x :: y :: ys
    else if x = y then y :: ys
    else y :: insertAsc x ys

/-- Strictly ascending list of the distinct elements of l; extensionally
equal to the JS Set-dedup-then-numeric-sort idiom. -/
def dedupSort (l : List Int) : List Int := l.foldl (fun acc x => insertAsc x acc) []

/-! ## Address specification parser (packages/core/src/address/parser.ts) -/

/-- AddressSpec tagged union. -/
inductive AddressSpec where
  | index (value : Int)
  | indices (value : List Int)
  | range (value : String)
  | address (value : String)
  | label (value : String)
deriving DecidableEq, Repr

/-- The TS spec.type string of a variant (used in error messages). -/
def AddressSpec.typeStr : AddressSpec → String
  | .index _ => "index"
  | .indices _ => "indices"
  | .range _ => "range"
  | .address _ => "address"
  | .label _ => "label"

/-- Regex ^\d+$ on a string. -/
def isAllDigits (s : String) : Bool :=
  !s.data.isEmpty && s.data.all Char.isDigit

/-- Regex ^[\d,\s]+$ on a string. -/
def isIndexListChars (s : String) : Bool :=
  !s.data.isEmpty && s.data.all (fun c => c.isDigit || c == ',' || c.isWhitespace)

/-- Regex ^[\d\-,\s]+$ on a string. -/
def isRangeChars (s : String) : Bool :=
  !s.data.isEmpty && s.data.all (fun c => c.isDigit || c == '-' || c == ',' || c.isWhitespace)

/-- parseAddressSpec for string input.  isAddr is the external viem
isAddress validator (checksummed-address check), passed as an oracle.
The registry parameter mirrors the wallets argument; the label branches
collapse because both the registry hit and the fallback produce a label. -/
def parseAddressSpec (isAddr : String → Bool) (value : String)
    (_wallets : List (String × String)) : AddressSpec :=
  let str := jsTrim value
  if isAddr str then .address str
  else if isAllDigits str then .index (digitsToNat str.data)
  else if isIndexListChars str && !(strContains str '-') then
    .indices (((jsSplit str ',').map (fun s => jsParseInt (jsTrim s))).filterMap id)
  else if isRangeChars str && strContains str '-' then .range str
  else .label str

/-- The ascending integer interval from a to b inclusive
(the for loop `for i = start; i <= end; i++`). -/
def intRangeList (a b : Int) : List Int :=
  (List.range ((b - a).toNat + 1)).map (fun i => a + (i : Int))

/-- One comma segment of parseRange: either a bare integer or a
start-end pair expanded to the inclusive interval. -/
def expandRangePart (part : String) : Except HSError (List Int) :=
  if strContains part '-' then
    let pieces := jsSplit part '-'
    let startStr := pieces.headD ""
    let endStr := (pieces.drop 1).headD ""
    match jsParseInt (jsTrim startStr), jsParseInt (jsTrim endStr) with
    | some a, some b =>
      if a > b then
        .error ⟨.ADDRESS_RANGE_INVALID,
          "Invalid range: start (" ++ toString a ++ ") > end (" ++ toString b ++ ")"⟩
      else .ok (intRangeList a b)
    | _, _ => .error ⟨.ADDRESS_RANGE_INVALID, "Invalid range part: " ++ part⟩
  else
    match jsParseInt part with
    | none => .error ⟨.ADDRESS_RANGE_INVALID, "Invalid index: " ++ part⟩
    | some i => .ok [i]

/-- Sequential accumulation of the segments, failing at the first bad one. -/
def expandRangeParts : List String → Except HSError (List Int)
  | [] => .ok []
  | p :: ps =>
    match expandRangePart p with
    | .error e => .error e
    | .ok xs =>
      match expandRangeParts ps with
      | .error e => .error e
      | .ok ys => .ok (xs ++ ys)

/-- parseRange: split on commas, trim, expand each segment, then remove
duplicates and sort ascending. -/
def parseRange (range : String) : Except HSError (List Int) :=
  (expandRangeParts ((jsSplit range ',').map jsTrim)).map dedupSort

/-- A resolved (identifier, address) pair. -/
structure Party where
  identifier : String
  address : String
deriving DecidableEq, Repr

/-- resolveToIndices. -/
def resolveToIndices (spec : AddressSpec) : Except HSError (List Int) :=
  match spec with
  | .index v => .ok [v]
  | .indices v => .ok (dedupSort v)
  | .range v => parseRange v
  | .address _ => .error ⟨.VALIDATION_ERROR, "Cannot resolve address to indices"⟩
  | .label _ => .error ⟨.VALIDATION_ERROR, "Cannot resolve label to indices"⟩

/-- resolveToAddress (single address).  A missing wallet registry is the
empty list (the label lookup fails identically). -/
def resolveToAddress (spec : AddressSpec) (wallets : List (String × String))
    (addressResolver : Option (Int → String)) : Except HSError String :=
  match spec with
  | .address v => .ok v
  | .label v =>
    match wallets.lookup v with
    | none => .error ⟨.ADDRESS_LABEL_NOT_FOUND, "Wallet label not found: " ++ v⟩
    | some a => .ok a
  | .index v =>
    match addressResolver with
    | none => .error ⟨.VALIDATION_ERROR, "Address resolver required for index resolution"⟩
    | some r => .ok (r v)
  | .indices _ => .error ⟨.VALIDATION_ERROR, "Cannot resolve indices to a single address"⟩
  | .range _ => .error ⟨.VALIDATION_ERROR, "Cannot resolve range to a single address"⟩

/-- resolveToAddresses (list of identifier/address pairs). -/
def resolveToAddresses (spec : AddressSpec) (wallets : List (String × String))
    (addressResolver : Option (Int → String)) : Except HSError (List Party) :=
  match spec with
  | .address v => .ok [⟨v, v⟩]
  | .label v =>
    match wallets.lookup v with
    | none => .error ⟨.ADDRESS_LABEL_NOT_FOUND, "Wallet label not found: " ++ v⟩
    | some a => .ok [⟨v, a⟩]
  | .index v =>
    match addressResolver with
    | none => .error ⟨.VALIDATION_ERROR, "Address resolver required for index resolution"⟩
    | some r => .ok [⟨toString v, r v⟩]
  | .indices v =>
    match addressResolver with
    | none => .error ⟨.VALIDATION_ERROR, "Address resolver required for indices resolution"⟩
    | some r => .ok (v.map (fun i => ⟨toString i, r i⟩))
  | .range v =>
    match addressResolver with
    | none => .error ⟨.VALIDATION_ERROR, "Address resolver required for range resolution"⟩
    | some r =>
      match parseRange v with
      | .error e => .error e
      | .ok indices => .ok (indices.map (fun i => ⟨toString i, r i⟩))

/-! ## Configuration model (packages/types config.types, core/src/config/loader.ts)

Chains are keyed by CAIP-2 id strings, wallets map labels to addresses,
tokens are keyed by chain id and then symbol.  Objects/records become
association lists; a JS undefined lookup becomes a none. -/

/-- The ChainConfig fields the transfer engine reads. -/
structure ChainCfg where
  chainId : Nat
  name : String
  nativeSymbol : String
  aliases : List String
deriving DecidableEq, Repr

/-- The TokenConfig fields the transfer engine reads. -/
structure TokenCfg where
  strategy : Option SweepStrategy
  address : Option String
  decimals : Option Nat
deriving DecidableEq, Repr

/-- The HotSweepConfig fields the transfer engine reads. -/
structure Config where
  chains : List (String × ChainCfg)
  wallets : List (String × String)
  tokens : List (String × List (String × TokenCfg))
deriving Repr

/-- getTokenConfig (config/loader.ts). -/
def getTokenConfig (config : Config) (chainId : String) (symbol : String) :
    Option TokenCfg :=
  match config.tokens.lookup chainId with
  | none => none
  | some chainTokens => chainTokens.lookup symbol

/-- toCaip2ChainId (config/loader.ts); the numeric-identifier case is the
digit-string form of the number. -/
def toCaip2ChainId (config : Config) (identifier : String) : Option String :=
  if strContains identifier ':' then some identifier
  else if isAllDigits identifier then
    let caip2Id := "eip155:" ++ identifier
    if (config.chains.lookup caip2Id).isSome then some caip2Id else none
  else
    let normalized := toLowerAscii identifier
    (config.chains.find? (fun p =>
      toLowerAscii p.2.name == normalized ||
      p.2.aliases.any (fun a => toLowerAscii a == normalized))).map (fun p => p.1)

/-- Regex ^0x[a-fA-F0-9]{40}$ used by resolveTokenAddress. -/
def isHexAddress40 (s : String) : Bool :=
  s.data.length == 42 && s.data.take 2 == ['0', 'x'] &&
    (s.data.drop 2).all (fun c =>
      c.isDigit || ('a' ≤ c && c ≤ 'f') || ('A' ≤ c && c ≤ 'F'))

/-- resolveTokenAddress (transfer/strategy.ts helper).  The empty-string
guard on the configured address models JS truthiness of
tokenConfig?.address. -/
def resolveTokenAddress (config : Config) (chainId : String) (token : String) :
    Except HSError String :=
  if isHexAddress40 token then .ok token
  else
    let chainConfig := config.chains.lookup chainId
    if (match chainConfig with
        | some c => toUpperAscii token == toUpperAscii c.nativeSymbol
        | none => false) || toLowerAscii token == "native" then
      .ok NATIVE_TOKEN_ADDRESS
    else
      match (getTokenConfig config chainId token).bind (fun c => c.address) with
      | some a =>
        if a.data.isEmpty then
          .error ⟨.TOKEN_NOT_FOUND, "Token not found: " ++ token ++ " on chain " ++ chainId⟩
        else .ok a
      | none =>
        .error ⟨.TOKEN_NOT_FOUND, "Token not found: " ++ token ++ " on chain " ++ chainId⟩

/-! ## Chain environment and effect trace

One oracle field per RPC call site of transfer/strategy.ts.  An
Except String result models a call that either returns or throws with a
message.  Write/send oracles yield the transaction hash; pure library
functions (parseUnits, formatUnits) and signing are oracles too, since
they are external to the repository. -/

/-- A transaction receipt (waitForTransactionReceipt result). -/
structure Receipt where
  blockNumber : Nat
  gasUsed : Nat
  effectiveGasPrice : Nat
deriving DecidableEq, Repr

/-- The chain client and external-library oracle record. -/
structure ChainEnv where
  chainId : Nat
  getBalance : String → Except String Nat
  balanceOf : String → Except String Nat
  getGasPrice : Except String Nat
  readSymbol : Except String String
  readName : Except String String
  readNonces : String → Except String Nat
  authorizationStateCall : Except String Bool
  domainSeparatorCall : Except String String
  sendTransaction : String → Nat → Except String String
  writeTransfer : Except String String
  writePermit : Except String String
  writeTransferAfterPermit : Except String String
  writeTransferWithAuthorization : Except String String
  waitForReceipt : String → Except String Receipt
  parseUnits : String → Nat → Nat
  formatUnits : Nat → Nat → String

/-- Observable chain interactions and signature productions, in program
order.  Reads are recorded when attempted; writes and sends are recorded
with the hash the call returned (a call that throws is recorded only
through the resulting error). -/
inductive Effect where
  | getBalance (addr : String)
  | readContract (fn : String)
  | getGasPrice
  | getChainId
  | signTypedData (primaryType : String)
  | sendTransaction (toAddr : String) (value : Nat) (hash : String)
  | writeContract (fn : String) (hash : String)
  | waitForReceipt (hash : String)
deriving DecidableEq, Repr

/-! ## Strategy detection (transfer/strategy.ts) -/

/-- The module-level strategy cache, keyed by getCacheKey strings. -/
abbrev StrategyCache := List (String × SweepStrategy)

/-- getCacheKey. -/
def getCacheKey (token : String) (chainId : Nat) : String :=
  toString chainId ++ ":" ++ toLowerAscii token

/-- checkEIP2612Support: the DOMAIN_SEPARATOR view call with .catch(null);
a throwing call means no support, never an error. -/
def checkEIP2612Support (env : ChainEnv) : Bool × List Effect :=
  (match env.domainSeparatorCall with
   | .ok _ => true
   | .error _ => false,
   [Effect.readContract "DOMAIN_SEPARATOR"])

/-- checkEIP3009Support: the authorizationState view call; success of the
call, regardless of the returned boolean, means support. -/
def checkEIP3009Support (env : ChainEnv) : Bool × List Effect :=
  (match env.authorizationStateCall with
   | .ok _ => true
   | .error _ => false,
   [Effect.readContract "authorizationState"])

/-- The forced strategy of a token configuration, when set and not auto
(JS truthiness: a set strategy is a nonempty string). -/
def forcedOf (tokenConfig : Option TokenCfg) : Option SweepStrategy :=
  match tokenConfig.bind (fun c => c.strategy) with
  | some s => if s = SweepStrategy.auto then none else some s
  | none => none

/-- detectStrategy: native short-circuit, forced-strategy short-circuit,
cache consultation, concurrent capability probes with priority
EIP-3009 over EIP-2612 over legacy, cache write before returning. -/
def detectStrategy (env : ChainEnv) (tokenAddress : String)
    (tokenConfig : Option TokenCfg) (cache : StrategyCache) :
    SweepStrategy × StrategyCache × List Effect :=
  if toLowerAscii tokenAddress = toLowerAscii NATIVE_TOKEN_ADDRESS then
    (SweepStrategy.legacy, cache, [])
  else
    match forcedOf tokenConfig with
    | some s => (s, cache, [])
    | none =>
      let cacheKey := getCacheKey tokenAddress env.chainId
      match List.lookup cacheKey cache with
      | some cached => (cached, cache, [Effect.getChainId])
      | none =>
        let r3009 := checkEIP3009Support env
        let r2612 := checkEIP2612Support env
        let strategy :=
          if r3009.1 then SweepStrategy.eip3009
          else if r2612.1 then SweepStrategy.eip2612
          else SweepStrategy.legacy
        (strategy, (cacheKey, strategy) :: cache,
          Effect.getChainId :: (r3009.2 ++ r2612.2))

/-! ## Transfer engine data model (packages/types transfer types) -/

/-- amount: decimal string or "all". -/
inductive Amount where
  | all
  | value (s : String)
deriving DecidableEq, Repr

/-- A signer account; opaque capability, here an identifying string. -/
def Signer := String

/-- Chain metadata embedded in a success result (undefined fields of a
missing chain config become none). -/
structure ChainInfo where
  id : Option Nat
  name : Option String
  caip2Id : String
deriving DecidableEq, Repr

/-- Transaction info of a success result. -/
structure TxInfo where
  hash : String
  blockNumber : Option Nat
  gasUsed : Option Nat
  effectiveGasPrice : Option Nat
deriving DecidableEq, Repr

/-- Amount info of a success result (human-readable and raw). -/
structure AmountInfo where
  value : String
  raw : String
deriving DecidableEq, Repr

/-- The success variant of TransferResult. -/
structure TransferSuccess where
  fromRef : Party
  toRef : Party
  chain : ChainInfo
  tokenSymbol : String
  tokenAddress : String
  amount : AmountInfo
  strategy : SweepStrategy
  tx : TxInfo
deriving DecidableEq, Repr

/-- A thrown error inside a transfer unit: either a HotSweepError or an
arbitrary (RPC/library) error with a message. -/
inductive ThrownError where
  | hs (e : HSError)
  | external (msg : String)
deriving DecidableEq, Repr

/-- The error code the executeTransfer catch blocks assign. -/
def ThrownError.toCode : ThrownError → ErrorCode
  | .hs e => e.code
  | .external _ => .TRANSFER_FAILED

/-- The error message the executeTransfer catch blocks assign. -/
def ThrownError.toMessage : ThrownError → String
  | .hs e => e.message
  | .external m => m

/-- TransferResult tagged union. -/
inductive TransferResultModel where
  | success (s : TransferSuccess)
  | failure (fromRef toRef : Party) (code : ErrorCode) (message : String)
deriving DecidableEq, Repr

/-- The from party of either result variant. -/
def TransferResultModel.fromParty : TransferResultModel → Party
  | .success s => s.fromRef
  | .failure f _ _ _ => f

/-- AddressGeneratorContext with the HD-derivation oracles
(generateAddress and accountFromHDKey are wrappers over external
key-derivation libraries). -/
structure AddressGeneratorContext where
  mnemonic : Option String
  passphrase : Option String
  xpriv : Option String
  deriveAddress : Int → String
  deriveFromMnemonic : Int → Signer
  deriveFromXpriv : Int → Signer

/-- TransferContext (transfer/strategy.ts). -/
structure TransferContext where
  config : Config
  addressContext : Option AddressGeneratorContext
  signerAccount : Option Signer

/-- JS truthiness of an optional string (undefined and "" are falsy). -/
def strTruthy : Option String → Bool
  | some s => !s.data.isEmpty
  | none => false

/-- getSignerAccount: directly supplied signer, else HD-derivation from the
numeric identifier via mnemonic or xpriv. -/
def getSignerAccount (ctx : TransferContext) (identifier : String) :
    Option Signer :=
  match ctx.signerAccount with
  | some a => some a
  | none =>
    match ctx.addressContext with
    | none => none
    | some ac =>
      match jsParseInt identifier with
      | none => none
      | some i =>
        if strTruthy ac.mnemonic then some (ac.deriveFromMnemonic i)
        else if strTruthy ac.xpriv then some (ac.deriveFromXpriv i)
        else none

/-- TransferOptions (the fields executeTransfer reads); from/to already
coerced to strings as executeTransfer does with String(...). -/
structure TransferOptions where
  fromO : String
  toO : String
  chain : String
  token : String
  amount : Amount
  strategy : Option SweepStrategy
  dryRun : Bool

/-! ## executeSingleTransfer (transfer/strategy.ts) -/

/-- The chain field of a success result, from the (possibly undefined)
chain config. -/
def chainInfoOf (chainConfig : Option ChainCfg) (chainId : String) : ChainInfo :=
  { id := chainConfig.map (fun c => c.chainId)
    name := chainConfig.map (fun c => c.name)
    caip2Id := chainId }

/-- The balance read: getBalance for native, balanceOf for tokens. -/
def readUnitBalance (env : ChainEnv) (isNative : Bool) (fromAddress : String) :
    Except String Nat × List Effect :=
  if isNative then (env.getBalance fromAddress, [Effect.getBalance fromAddress])
  else (env.balanceOf fromAddress, [Effect.readContract "balanceOf"])

/-- The transfer-amount computation: for "all" on native assets reserve
2 x gasPrice x 21000 (zero when the balance does not exceed the
reservation), for "all" on tokens the full balance, otherwise
parseUnits(amount, decimals). -/
def computeTransferAmount (env : ChainEnv) (isNative : Bool) (balance : Nat)
    (amount : Amount) (decimals : Nat) : Except String Nat × List Effect :=
  match amount with
  | .all =>
    if isNative then
      match env.getGasPrice with
      | .error m => (.error m, [Effect.getGasPrice])
      | .ok gasPrice =>
        let estimatedGas := 21000
        let gasCost := gasPrice * estimatedGas * 2
        (.ok (if balance > gasCost then balance - gasCost else 0),
          [Effect.getGasPrice])
    else (.ok balance, [])
  | .value s => (.ok (env.parseUnits s decimals), [])

/-- The strategy dispatch: returns the transaction hash placed in the
result together with the effects of the dispatched call path. -/
def dispatchStrategy (env : ChainEnv) (isNative : Bool)
    (strategy : SweepStrategy) (fromAddress toAddress : String)
    (transferAmount : Nat) : Except ThrownError String × List Effect :=
  if isNative then
    match env.sendTransaction toAddress transferAmount with
    | .error m => (.error (.external m), [])
    | .ok h => (.ok h, [Effect.sendTransaction toAddress transferAmount h])
  else if strategy = SweepStrategy.legacy then
    match env.writeTransfer with
    | .error m => (.error (.external m), [])
    | .ok h => (.ok h, [Effect.writeContract "transfer" h])
  else if strategy = SweepStrategy.eip2612 then
    match env.readName with
    | .error m => (.error (.external m), [Effect.readContract "name"])
    | .ok _tokenName =>
      match env.readNonces fromAddress with
      | .error m =>
        (.error (.external m),
          [Effect.readContract "name", Effect.readContract "nonces"])
      | .ok _nonce =>
        match env.writePermit with
        | .error m =>
          (.error (.external m),
            [Effect.readContract "name", Effect.readContract "nonces",
             Effect.getChainId, Effect.signTypedData "Permit"])
        | .ok permitHash =>
          match env.writeTransferAfterPermit with
          | .error m =>
            (.error (.external m),
              [Effect.readContract "name", Effect.readContract "nonces",
               Effect.getChainId, Effect.signTypedData "Permit",
               Effect.writeContract "permit" permitHash])
          | .ok transferHash =>
            (.ok permitHash,
              [Effect.readContract "name", Effect.readContract "nonces",
               Effect.getChainId, Effect.signTypedData "Permit",
               Effect.writeContract "permit" permitHash,
               Effect.writeContract "transfer" transferHash])
  else if strategy = SweepStrategy.eip3009 then
    match env.readName with
    | .error m => (.error (.external m), [Effect.readContract "name"])
    | .ok _tokenName =>
      match env.writeTransferWithAuthorization with
      | .error m =>
        (.error (.external m),
          [Effect.readContract "name", Effect.getChainId,
           Effect.signTypedData "TransferWithAuthorization"])
      | .ok h =>
        (.ok h,
          [Effect.readContract "name", Effect.getChainId,
           Effect.signTypedData "TransferWithAuthorization",
           Effect.writeContract "transferWithAuthorization" h])
  else
    (.error (.hs ⟨.STRATEGY_UNSUPPORTED,
      "Strategy not supported: " ++ strategy.str⟩), [])

/-- The phase of executeSingleTransfer before the dry-run branch: balance
read, transfer-amount computation, the two insufficient-balance guards,
and strategy resolution (explicit non-auto option wins, otherwise
detection).  Returns the transfer amount and strategy, the updated
strategy cache, and the effect trace so far. -/
def unitPrepare (ctx : TransferContext) (env : ChainEnv) (chainId : String)
    (fromAddress tokenAddress symbol : String) (decimals : Nat)
    (amount : Amount) (strategyOption : Option SweepStrategy)
    (cache : StrategyCache) :
    Except ThrownError (Nat × SweepStrategy) × StrategyCache × List Effect :=
  let isNative := toLowerAscii tokenAddress = toLowerAscii NATIVE_TOKEN_ADDRESS
  match readUnitBalance env isNative fromAddress with
  | (.error m, tr1) => (.error (.external m), cache, tr1)
  | (.ok balance, tr1) =>
    match computeTransferAmount env isNative balance amount decimals with
    | (.error m, tr2) => (.error (.external m), cache, tr1 ++ tr2)
    | (.ok transferAmount, tr2) =>
      if transferAmount = 0 then
        (.error (.hs ⟨.TRANSFER_INSUFFICIENT_BALANCE,
          "Insufficient balance for transfer"⟩), cache, tr1 ++ tr2)
      else if transferAmount > balance then
        (.error (.hs ⟨.TRANSFER_INSUFFICIENT_BALANCE,
          "Insufficient balance: " ++ env.formatUnits balance decimals ++
            " < " ++ env.formatUnits transferAmount decimals⟩), cache,
          tr1 ++ tr2)
      else
        let tokenConfig := getTokenConfig ctx.config chainId symbol
        let det :=
          match strategyOption with
          | some s =>
            if s = SweepStrategy.auto then
              detectStrategy env tokenAddress tokenConfig cache
            else (s, cache, [])
          | none => detectStrategy env tokenAddress tokenConfig cache
        (.ok (transferAmount, det.1), det.2.1, tr1 ++ tr2 ++ det.2.2)

/-- executeSingleTransfer: the prepare phase, then the dry-run
short-circuit (sentinel "0x" hash, nothing else), else signer lookup,
strategy dispatch, confirmation wait, and result assembly.  Returns the
result (ok success or thrown error), the updated strategy cache, and the
effect trace. -/
def executeSingleTransfer (ctx : TransferContext) (env : ChainEnv)
    (chainId : String) (chainConfig : Option ChainCfg)
    (fromAddress fromIdentifier toAddress toIdentifier : String)
    (tokenAddress symbol : String) (decimals : Nat) (amount : Amount)
    (strategyOption : Option SweepStrategy) (dryRun : Bool)
    (cache : StrategyCache) :
    Except ThrownError TransferSuccess × StrategyCache × List Effect :=
  let isNative := toLowerAscii tokenAddress = toLowerAscii NATIVE_TOKEN_ADDRESS
  match unitPrepare ctx env chainId fromAddress tokenAddress symbol decimals
      amount strategyOption cache with
  | (.error e, cache2, tr) => (.error e, cache2, tr)
  | (.ok (transferAmount, strategy), cache2, tr) =>
    if dryRun then
      (.ok
        { fromRef := ⟨fromIdentifier, fromAddress⟩
          toRef := ⟨toIdentifier, toAddress⟩
          chain := chainInfoOf chainConfig chainId
          tokenSymbol := symbol
          tokenAddress := tokenAddress
          amount := ⟨env.formatUnits transferAmount decimals,
            toString transferAmount⟩
          strategy := strategy
          tx := ⟨"0x", none, none, none⟩ },
        cache2, tr)
    else
      match getSignerAccount ctx fromIdentifier with
      | none =>
        (.error (.hs ⟨.WALLET_KEY_NOT_FOUND,
          "No signer available for address: " ++ fromAddress⟩), cache2, tr)
      | some _account =>
        match dispatchStrategy env isNative strategy fromAddress toAddress
            transferAmount with
        | (.error e, tr4) => (.error e, cache2, tr ++ tr4)
        | (.ok txHash, tr4) =>
          match env.waitForReceipt txHash with
          | .error m =>
            (.error (.external m), cache2,
              tr ++ tr4 ++ [Effect.waitForReceipt txHash])
          | .ok receipt =>
            (.ok
              { fromRef := ⟨fromIdentifier, fromAddress⟩
                toRef := ⟨toIdentifier, toAddress⟩
                chain := chainInfoOf chainConfig chainId
                tokenSymbol := symbol
                tokenAddress := tokenAddress
                amount := ⟨env.formatUnits transferAmount decimals,
                  toString transferAmount⟩
                strategy := strategy
                tx := ⟨txHash, some receipt.blockNumber,
                  some receipt.gasUsed, some receipt.effectiveGasPrice⟩ },
              cache2,
              tr ++ tr4 ++ [Effect.waitForReceipt txHash])

/-- The effects a transfer unit may record before any signature is
produced, any account nonce is consumed, or any transaction is submitted:
the balance reads, the gas-price read of the sweep-amount computation,
and the chain-id read and capability probes of strategy detection. -/
def dryRunAllowed (e : Effect) : Bool :=
  match e with
  | .getBalance _ => true
  | .readContract fn =>
    fn == "balanceOf" || fn == "authorizationState" || fn == "DOMAIN_SEPARATOR"
  | .getGasPrice => true
  | .getChainId => true
  | _ => false

/-! ## executeTransfer (transfer/strategy.ts) -/

/-- The data executeTransfer assembles before its per-address loop. -/
structure PrepResult where
  chainId : String
  chainConfig : Option ChainCfg
  fromAddresses : List Party
  toAddress : String
  tokenAddress : String
  symbol : String
  decimals : Nat

/-- The pre-loop part of executeTransfer: chain resolution, address
specification parsing and resolution, token resolution, symbol read
(failures of the symbol read keep the original symbol). -/
def executeTransferPrep (isAddr : String → Bool) (ctx : TransferContext)
    (env : ChainEnv) (options : TransferOptions) :
    Except HSError PrepResult × List Effect :=
  match toCaip2ChainId ctx.config options.chain with
  | none =>
    (.error ⟨.CHAIN_NOT_FOUND, "Chain not found: " ++ options.chain⟩, [])
  | some chainId =>
    let chainConfig := ctx.config.chains.lookup chainId
    let fromSpec := parseAddressSpec isAddr options.fromO ctx.config.wallets
    let toSpec := parseAddressSpec isAddr options.toO ctx.config.wallets
    let addressResolver := ctx.addressContext.map (fun ac => ac.deriveAddress)
    match resolveToAddresses fromSpec ctx.config.wallets addressResolver with
    | .error e => (.error e, [])
    | .ok fromAddresses =>
      match resolveToAddress toSpec ctx.config.wallets addressResolver with
      | .error e => (.error e, [])
      | .ok toAddress =>
        match resolveTokenAddress ctx.config chainId options.token with
        | .error e => (.error e, [])
        | .ok tokenAddress =>
          let tokenConfig := getTokenConfig ctx.config chainId options.token
          let isNative :=
            toLowerAscii tokenAddress = toLowerAscii NATIVE_TOKEN_ADDRESS
          let decimals := (tokenConfig.bind (fun c => c.decimals)).getD 18
          if !isNative && tokenAddress ≠ NATIVE_TOKEN_ADDRESS then
            match env.readSymbol with
            | .ok s =>
              (.ok ⟨chainId, chainConfig, fromAddresses, toAddress,
                tokenAddress, s, decimals⟩, [Effect.readContract "symbol"])
            | .error _ =>
              (.ok ⟨chainId, chainConfig, fromAddresses, toAddress,
                tokenAddress, options.token, decimals⟩,
                [Effect.readContract "symbol"])
          else
            (.ok ⟨chainId, chainConfig, fromAddresses, toAddress,
              tokenAddress, options.token, decimals⟩, [])

/-- The per-source-address loop: each unit runs independently, a thrown
error becomes a failure entry with the catch block's code and message,
and the loop always continues with the remaining addresses. -/
def transferUnitsLoop (ctx : TransferContext) (env : ChainEnv)
    (chainId : String) (chainConfig : Option ChainCfg)
    (toAddress toIdentifier tokenAddress symbol : String) (decimals : Nat)
    (amount : Amount) (strategyOption : Option SweepStrategy) (dryRun : Bool) :
    List Party → StrategyCache →
    List TransferResultModel × StrategyCache × List Effect
  | [], cache => ([], cache, [])
  | p :: ps, cache =>
    let r := executeSingleTransfer ctx env chainId chainConfig p.address
      p.identifier toAddress toIdentifier tokenAddress symbol decimals amount
      strategyOption dryRun cache
    let entry :=
      match r.1 with
      | .ok s => TransferResultModel.success s
      | .error t =>
        TransferResultModel.failure p ⟨toIdentifier, toAddress⟩ t.toCode
          t.toMessage
    let rest := transferUnitsLoop ctx env chainId chainConfig toAddress
      toIdentifier tokenAddress symbol decimals amount strategyOption dryRun
      ps r.2.1
    (entry :: rest.1, rest.2.1, r.2.2 ++ rest.2.2)

/-- The address placed in an outer-catch failure result: the raw address
for an address specification, the "0x" sentinel otherwise. -/
def fallbackAddress (spec : AddressSpec) : String :=
  match spec with
  | .address v => v
  | _ => "0x0"

/-- executeTransfer: prepares, runs the per-address loop, and returns the
single result when exactly one source address was resolved, otherwise the
LAST result of the list (results[results.length - 1]); none models the
undefined produced by indexing an empty results array.  Errors thrown
before the loop are caught into a single failure result. -/
def executeTransfer (isAddr : String → Bool) (ctx : TransferContext)
    (env : ChainEnv) (options : TransferOptions) (cache : StrategyCache) :
    Option TransferResultModel × StrategyCache × List Effect :=
  match executeTransferPrep isAddr ctx env options with
  | (.error e, tr) =>
    (some (TransferResultModel.failure
      ⟨options.fromO,
        fallbackAddress (parseAddressSpec isAddr options.fromO ctx.config.wallets)⟩
      ⟨options.toO,
        fallbackAddress (parseAddressSpec isAddr options.toO ctx.config.wallets)⟩
      e.code e.message), cache, tr)
  | (.ok prep, tr) =>
    let loop := transferUnitsLoop ctx env prep.chainId prep.chainConfig
      prep.toAddress options.toO prep.tokenAddress prep.symbol prep.decimals
      options.amount options.strategy options.dryRun prep.fromAddresses cache
    (if loop.1.length = 1 then loop.1.head? else loop.1.getLast?,
      loop.2.1, tr ++ loop.2.2)

/-- Follows the claim wording for the range-expansion failure condition:
a comma segment is invalid when it is non-numeric, or is a start-end pair
whose bounds are not both numeric or whose start exceeds its end.  Stated
for comparison with expandRangePart, which is translated from the code. -/
def specSegmentInvalid (part : String) : Bool :=
  if strContains part '-' then
    match jsParseInt (jsTrim ((jsSplit part '-').headD "")),
      jsParseInt (jsTrim (((jsSplit part '-').drop 1).headD "")) with
    | some a, some b => a > b
    | _, _ => true
  else (jsParseInt part).isNone

/-! ## Concrete fixtures used by witness theorems -/

/-- A fully-successful concrete chain environment. -/
def witEnv : ChainEnv :=
  { chainId := 1
    getBalance := fun _ => .ok 1000000
    balanceOf := fun _ => .ok 500
    getGasPrice := .ok 2
    readSymbol := .ok "TOK"
    readName := .ok "Token"
    readNonces := fun _ => .ok 7
    authorizationStateCall := .ok false
    domainSeparatorCall := .ok "0xdomsep"
    sendTransaction := fun _ _ => .ok "0xsend"
    writeTransfer := .ok "0xlegacy"
    writePermit := .ok "0xpermit"
    writeTransferAfterPermit := .ok "0xpull"
    writeTransferWithAuthorization := .ok "0xauth"
    waitForReceipt := fun _ => .ok ⟨10, 21000, 2⟩
    parseUnits := fun _ _ => 5
    formatUnits := fun n _ => toString n }

/-- A concrete configuration: one chain, one wallet label, one token. -/
def witConfig : Config :=
  { chains := [("eip155:1", ⟨1, "ethereum", "ETH", []⟩)]
    wallets := [("hot", "0xhot")]
    tokens := [("eip155:1",
      [("TOK", ⟨some SweepStrategy.auto,
        some "0xAbCd000000000000000000000000000000000001", some 6⟩)])] }

/-- A concrete HD-derivation context. -/
def witAddressCtx : AddressGeneratorContext :=
  { mnemonic := some "test seed"
    passphrase := none
    xpriv := none
    deriveAddress := fun i => "0xaddr" ++ toString i
    deriveFromMnemonic := fun i => "signer" ++ toString i
    deriveFromXpriv := fun i => "xsigner" ++ toString i }

/-- A concrete transfer context over witConfig. -/
def witCtx : TransferContext :=
  { config := witConfig
    addressContext := some witAddressCtx
    signerAccount := none }

/-- A concrete ERC-20 token address (non-native). -/
def witToken : String := "0xAbCd000000000000000000000000000000000001"

/-! ## Theorems -/

theorem mem_insertAsc (x a : Int) (l : List Int) :
    a ∈ insertAsc x l ↔ a = x ∨ a ∈ l := by
  induction l with
  | nil => simp [insertAsc]
  | cons y ys ih =>
    simp only [insertAsc]
    by_cases hxy : x < y
    · simp [if_pos hxy]
    · by_cases heq : x = y
      · subst heq
        rw [if_neg hxy, if_pos rfl]
        simp only [List.mem_cons]
        tauto
      · rw [if_neg hxy, if_neg heq]
        simp only [List.mem_cons, ih]
        tauto

theorem pairwise_insertAsc (x : Int) (l : List Int)
    (h : l.Pairwise (· < ·)) : (insertAsc x l).Pairwise (· < ·) := by
  induction l with
  | nil => simp [insertAsc]
  | cons y ys ih =>
    rcases List.pairwise_cons.mp h with ⟨hy, hys⟩
    simp only [insertAsc]
    by_cases hxy : x < y
    · rw [if_pos hxy]
      refine List.pairwise_cons.mpr ⟨?_, h⟩
      intro a ha
      rcases List.mem_cons.mp ha with rfl | ha
      · exact hxy
      · exact lt_trans hxy (hy a ha)
    · by_cases heq : x = y
      · rw [if_neg hxy, if_pos heq]
        exact h
      · have hyx : y < x := by omega
        rw [if_neg hxy, if_neg heq]
        refine List.pairwise_cons.mpr ⟨?_, ih hys⟩
        intro a ha
        rcases (mem_insertAsc x a ys).mp ha with rfl | ha
        · exact hyx
        · exact hy a ha

theorem pairwise_dedupSort (l : List Int) : (dedupSort l).Pairwise (· < ·) := by
  suffices h : ∀ acc : List Int, acc.Pairwise (· < ·) →
      (l.foldl (fun acc x => insertAsc x acc) acc).Pairwise (· < ·) by
    exact h [] (by simp)
  induction l with
  | nil => intro acc hacc; simpa using hacc
  | cons x xs ih =>
    intro acc hacc
    exact ih (insertAsc x acc) (pairwise_insertAsc x acc hacc)

theorem mem_dedupSort (a : Int) (l : List Int) : a ∈ dedupSort l ↔ a ∈ l := by
  suffices h : ∀ acc : List Int,
      (a ∈ l.foldl (fun acc x => insertAsc x acc) acc ↔ a ∈ acc ∨ a ∈ l) by
    simpa using h []
  induction l with
  | nil => intro acc; simp
  | cons x xs ih =>
    intro acc
    rw [List.foldl_cons, ih (insertAsc x acc), mem_insertAsc]
    simp only [List.mem_cons]
    tauto


theorem expandRangePart_cases (p : String) :
    (∃ e, expandRangePart p = .error e ∧ e.code = .ADDRESS_RANGE_INVALID ∧
      specSegmentInvalid p = true) ∨
    (∃ xs, expandRangePart p = .ok xs ∧ specSegmentInvalid p = false) := by
  unfold expandRangePart specSegmentInvalid
  by_cases hb : strContains p '-'
  · simp only [hb, if_true]
    cases h1 : jsParseInt (jsTrim ((jsSplit p '-').headD "")) with
    | none => left; exact ⟨_, rfl, rfl, rfl⟩
    | some a =>
      cases h2 : jsParseInt (jsTrim (((jsSplit p '-').drop 1).headD "")) with
      | none => left; exact ⟨_, rfl, rfl, rfl⟩
      | some b =>
        by_cases hab : a > b
        · left
          exact ⟨⟨.ADDRESS_RANGE_INVALID, "Invalid range: start (" ++
            toString a ++ ") > end (" ++ toString b ++ ")"⟩,
            by simp [hab], rfl, by simp [hab]⟩
        · right
          exact ⟨intRangeList a b, by simp [hab], by simp [hab]⟩
  · simp only [hb, if_false]
    cases h1 : jsParseInt p with
    | none => left; exact ⟨_, rfl, rfl, rfl⟩
    | some i => right; exact ⟨_, rfl, rfl⟩

theorem expandRangeParts_error_iff (ps : List String) :
    (∃ e, expandRangeParts ps = .error e ∧ e.code = .ADDRESS_RANGE_INVALID) ↔
    ∃ p ∈ ps, specSegmentInvalid p = true := by
  induction ps with
  | nil => simp [expandRangeParts]
  | cons p ps ih =>
    simp only [expandRangeParts]
    rcases expandRangePart_cases p with ⟨e, he, hc, hs⟩ | ⟨xs, hx, hs⟩
    · rw [he]
      constructor
      · intro _
        exact ⟨p, by simp, hs⟩
      · intro _
        exact ⟨e, rfl, hc⟩
    · rw [hx]
      cases hr : expandRangeParts ps with
      | error e =>
        constructor
        · rintro ⟨e', he', hc'⟩
          rcases (ih.mp ⟨e', by rw [hr]; exact he', hc'⟩) with ⟨q, hq, hqs⟩
          exact ⟨q, by simp [hq], hqs⟩
        · rintro ⟨q, hq, hqs⟩
          rcases List.mem_cons.mp hq with rfl | hq'
          · exact absurd hqs (by simp [hs])
          · rcases ih.mpr ⟨q, hq', hqs⟩ with ⟨e', he', hc'⟩
            rw [hr] at he'
            exact ⟨e', he', hc'⟩
      | ok ys =>
        constructor
        · rintro ⟨e', he', _⟩
          exact absurd he' (by simp)
        · rintro ⟨q, hq, hqs⟩
          rcases List.mem_cons.mp hq with rfl | hq'
          · exact absurd hqs (by simp [hs])
          · rcases ih.mpr ⟨q, hq', hqs⟩ with ⟨e', he', _⟩
            rw [hr] at he'
            exact absurd he' (by simp)

theorem parseRange_error_iff (s : String) :
    (∃ e, parseRange s = .error e ∧ e.code = .ADDRESS_RANGE_INVALID) ↔
    ∃ p ∈ (jsSplit s ',').map jsTrim, specSegmentInvalid p = true := by
  rw [← expandRangeParts_error_iff]
  unfold parseRange
  cases h : expandRangeParts ((jsSplit s ',').map jsTrim) with
  | error e => simp [h, Except.map]
  | ok xs => simp [h, Except.map]

theorem parseRange_ok_pairwise (s : String) (l : List Int)
    (h : parseRange s = .ok l) : l.Pairwise (· < ·) := by
  unfold parseRange at h
  cases hr : expandRangeParts ((jsSplit s ',').map jsTrim) with
  | error e => rw [hr] at h; exact absurd h (by simp [Except.map])
  | ok xs =>
    rw [hr] at h
    simp only [Except.map] at h
    cases h
    exact pairwise_dedupSort xs

/-- C7: parseRange returns the sorted duplicate-free expansion of its
comma-separated segments; the spec's three examples hold concretely, a
successful result is always strictly increasing, and parseRange fails
with the ADDRESS_RANGE_INVALID code exactly when some trimmed comma
segment is non-numeric or a start-end pair with start greater than end. -/
theorem C7_parseRange (s : String) (l : List Int) :
    parseRange "0-2,10,20-22" = .ok [0, 1, 2, 10, 20, 21, 22] ∧
    parseRange "1-3,2-4" = .ok [1, 2, 3, 4] ∧
    (∃ e, parseRange "10-5" = .error e ∧ e.code = .ADDRESS_RANGE_INVALID) ∧
    (parseRange s = .ok l → l.Pairwise (· < ·)) ∧
    ((∃ e, parseRange s = .error e ∧ e.code = .ADDRESS_RANGE_INVALID) ↔
      ∃ p ∈ (jsSplit s ',').map jsTrim, specSegmentInvalid p = true) := by
  refine ⟨by rfl, by rfl,
    ⟨⟨.ADDRESS_RANGE_INVALID, "Invalid range: start (10) > end (5)"⟩, by rfl, rfl⟩,
    parseRange_ok_pairwise s l, parseRange_error_iff s⟩

/-- Witness for C7 at the concrete inputs "1-3,2-4" and "10-5". -/
theorem C7_parseRange_witness :
    [(1 : Int), 2, 3, 4].Pairwise (· < ·) ∧
    (∃ p ∈ (jsSplit "10-5" ',').map jsTrim, specSegmentInvalid p = true) := by
  refine ⟨(C7_parseRange "1-3,2-4" [1, 2, 3, 4]).2.2.2.1 (by rfl),
    (C7_parseRange "10-5" []).2.2.2.2.mp
      ⟨⟨.ADDRESS_RANGE_INVALID, "Invalid range: start (10) > end (5)"⟩, by rfl, rfl⟩⟩

/-- C3 counterexample: resolveToAddresses maps an IndexList over its given
index order without removing duplicates, so for the specification
indices [3, 3, 1] the resolved identifier sequence is "3", "3", "1" —
neither sorted ascending nor duplicate-free. -/
theorem C3_counterexample :
    (resolveToAddresses (AddressSpec.indices [3, 3, 1]) []
        (some (fun i => toString i))).map (fun l => l.map Party.identifier) =
      .ok ["3", "3", "1"] ∧
    ¬ (["3", "3", "1"] : List String).Nodup := by
  exact ⟨by rfl, by decide⟩

/-- C3 amended: resolveToIndices normalizes IndexList and Range
specifications to a strictly increasing duplicate-free index sequence, and
resolveToAddresses does so for Range specifications (whose indices come
from parseRange); but resolveToAddresses maps an IndexList over its
indices in the given order, without sorting or de-duplication. -/
theorem C3_normalization (l : List Int) (s : String) (res : List Int)
    (ws : List (String × String)) (r : Int → String) (ps : List Party) :
    (resolveToIndices (AddressSpec.indices l) = .ok (dedupSort l) ∧
      (dedupSort l).Pairwise (· < ·)) ∧
    (resolveToIndices (AddressSpec.range s) = parseRange s) ∧
    (resolveToIndices (AddressSpec.range s) = .ok res →
      res.Pairwise (· < ·)) ∧
    (resolveToAddresses (AddressSpec.range s) ws (some r) = .ok ps →
      ∃ idx, parseRange s = .ok idx ∧ idx.Pairwise (· < ·) ∧
        ps = idx.map (fun i => ⟨toString i, r i⟩)) ∧
    (resolveToAddresses (AddressSpec.indices l) ws (some r) =
      .ok (l.map (fun i => ⟨toString i, r i⟩))) := by
  refine ⟨⟨rfl, pairwise_dedupSort l⟩, rfl, parseRange_ok_pairwise s res, ?_, rfl⟩
  intro h
  simp only [resolveToAddresses] at h
  cases hr : parseRange s with
  | error e =>
    rw [hr] at h
    exact absurd h (by simp)
  | ok idx =>
    rw [hr] at h
    simp only [Except.ok.injEq] at h
    exact ⟨idx, rfl, parseRange_ok_pairwise s idx hr, h.symm⟩

/-- Witness for C3's amended statement at indices [3, 1, 3] and the range
text "2-4,0". -/
theorem C3_normalization_witness :
    resolveToIndices (AddressSpec.indices [3, 1, 3]) = .ok [1, 3] ∧
    ([(1 : Int), 3]).Pairwise (· < ·) ∧
    ([(0 : Int), 2, 3, 4]).Pairwise (· < ·) ∧
    resolveToAddresses (AddressSpec.indices [3, 1, 3]) []
      (some (fun i => toString i)) =
      .ok [⟨"3", "3"⟩, ⟨"1", "1"⟩, ⟨"3", "3"⟩] := by
  have h := C3_normalization [3, 1, 3] "2-4,0" [0, 2, 3, 4] []
    (fun i => toString i) []
  refine ⟨?_, ?_, h.2.2.1 (by rfl), ?_⟩
  · exact h.1.1
  · exact h.1.2
  · exact h.2.2.2.2


/-- C4: for a non-native token with no forced strategy and no cache entry,
detection with both probes succeeding returns Authorization (eip3009) and
never Approval; with only the approval probe succeeding it returns
Approval (eip2612); with neither succeeding it returns Plain (legacy).  A
probe whose call throws is treated as the capability being absent: the
detection still returns a strategy in every case. -/
theorem C4_detect_priority (env : ChainEnv) (tokenAddress : String)
    (tokenConfig : Option TokenCfg) (cache : StrategyCache)
    (hn : toLowerAscii tokenAddress ≠ toLowerAscii NATIVE_TOKEN_ADDRESS)
    (hf : forcedOf tokenConfig = none)
    (hc : List.lookup (getCacheKey tokenAddress env.chainId) cache = none) :
    (∀ b d, env.authorizationStateCall = .ok b →
      env.domainSeparatorCall = .ok d →
      (detectStrategy env tokenAddress tokenConfig cache).1 =
        SweepStrategy.eip3009) ∧
    (∀ m d, env.authorizationStateCall = .error m →
      env.domainSeparatorCall = .ok d →
      (detectStrategy env tokenAddress tokenConfig cache).1 =
        SweepStrategy.eip2612) ∧
    (∀ m m2, env.authorizationStateCall = .error m →
      env.domainSeparatorCall = .error m2 →
      (detectStrategy env tokenAddress tokenConfig cache).1 =
        SweepStrategy.legacy) := by
  refine ⟨?_, ?_, ?_⟩ <;> intro x y hx hy <;>
    simp [detectStrategy, if_neg hn, hf, hc, checkEIP3009Support,
      checkEIP2612Support, hx, hy]

/-- Witness for C4 at a concrete environment: case both probes succeed. -/
theorem C4_detect_priority_witness :
    (detectStrategy { witEnv with authorizationStateCall := .ok true }
      witToken none []).1 = SweepStrategy.eip3009 := by
  exact (C4_detect_priority { witEnv with authorizationStateCall := .ok true }
    witToken none [] (by decide) rfl rfl).1 true "0xdomsep" rfl rfl

/-- C5: a non-native token whose configuration forces a strategy other
than auto makes detectStrategy return that strategy as-is with an empty
effect trace (no chain-id read, no capability probe) and an unchanged
cache, for every environment and every cache content. -/
theorem C5_forced_strategy (env : ChainEnv) (tokenAddress : String)
    (cfg : TokenCfg) (s : SweepStrategy) (cache : StrategyCache)
    (hn : toLowerAscii tokenAddress ≠ toLowerAscii NATIVE_TOKEN_ADDRESS)
    (hs : cfg.strategy = some s) (ha : s ≠ SweepStrategy.auto) :
    detectStrategy env tokenAddress (some cfg) cache = (s, cache, []) := by
  simp [detectStrategy, if_neg hn, forcedOf, hs, ha]

/-- Witness for C5: a token forced to eip2612 under an environment whose
probes would detect eip3009, with a cache entry that disagrees. -/
theorem C5_forced_strategy_witness :
    detectStrategy { witEnv with authorizationStateCall := .ok true }
      witToken (some ⟨some SweepStrategy.eip2612, none, none⟩)
      [(getCacheKey witToken 1, SweepStrategy.legacy)] =
    (SweepStrategy.eip2612,
      [(getCacheKey witToken 1, SweepStrategy.legacy)], []) := by
  exact C5_forced_strategy { witEnv with authorizationStateCall := .ok true }
    witToken ⟨some SweepStrategy.eip2612, none, none⟩ SweepStrategy.eip2612
    [(getCacheKey witToken 1, SweepStrategy.legacy)] (by decide) rfl
    (by decide)

/-- C9: two successive detections for the same (chainId, tokenAddress)
with no forced strategy, starting from a cache without the key: the first
call performs exactly one probe round (the chain-id read and the two
capability reads), writes its concrete result under the cache key before
returning, and the second call — under any environment with the same
chain id and any token configuration without a forced strategy — is
answered from the cache: same strategy, no probe effects, unchanged
cache.  The cached value is never auto. -/
theorem C9_detect_idempotent (env env2 : ChainEnv) (tokenAddress : String)
    (tokenConfig tokenConfig2 : Option TokenCfg) (cache : StrategyCache)
    (hn : toLowerAscii tokenAddress ≠ toLowerAscii NATIVE_TOKEN_ADDRESS)
    (hf : forcedOf tokenConfig = none) (hf2 : forcedOf tokenConfig2 = none)
    (hc : List.lookup (getCacheKey tokenAddress env.chainId) cache = none)
    (hch : env2.chainId = env.chainId) :
    (detectStrategy env2 tokenAddress tokenConfig2
        (detectStrategy env tokenAddress tokenConfig cache).2.1).1 =
      (detectStrategy env tokenAddress tokenConfig cache).1 ∧
    (detectStrategy env2 tokenAddress tokenConfig2
        (detectStrategy env tokenAddress tokenConfig cache).2.1).2.1 =
      (detectStrategy env tokenAddress tokenConfig cache).2.1 ∧
    (detectStrategy env2 tokenAddress tokenConfig2
        (detectStrategy env tokenAddress tokenConfig cache).2.1).2.2 =
      [Effect.getChainId] ∧
    (detectStrategy env tokenAddress tokenConfig cache).2.2 =
      [Effect.getChainId, Effect.readContract "authorizationState",
        Effect.readContract "DOMAIN_SEPARATOR"] ∧
    List.lookup (getCacheKey tokenAddress env.chainId)
        (detectStrategy env tokenAddress tokenConfig cache).2.1 =
      some (detectStrategy env tokenAddress tokenConfig cache).1 ∧
    (detectStrategy env tokenAddress tokenConfig cache).1 ≠
      SweepStrategy.auto := by
  have hd1 : detectStrategy env tokenAddress tokenConfig cache =
      (if (checkEIP3009Support env).1 then SweepStrategy.eip3009
       else if (checkEIP2612Support env).1 then SweepStrategy.eip2612
       else SweepStrategy.legacy,
       (getCacheKey tokenAddress env.chainId,
        if (checkEIP3009Support env).1 then SweepStrategy.eip3009
        else if (checkEIP2612Support env).1 then SweepStrategy.eip2612
        else SweepStrategy.legacy) :: cache,
       [Effect.getChainId, Effect.readContract "authorizationState",
        Effect.readContract "DOMAIN_SEPARATOR"]) := by
    simp [detectStrategy, if_neg hn, hf, hc, checkEIP3009Support,
      checkEIP2612Support]
  have hkey : getCacheKey tokenAddress env2.chainId =
      getCacheKey tokenAddress env.chainId := by
    rw [getCacheKey, getCacheKey, hch]
  have hd2 : detectStrategy env2 tokenAddress tokenConfig2
      (detectStrategy env tokenAddress tokenConfig cache).2.1 =
      ((detectStrategy env tokenAddress tokenConfig cache).1,
       (detectStrategy env tokenAddress tokenConfig cache).2.1,
       [Effect.getChainId]) := by
    rw [hd1]
    simp [detectStrategy, if_neg hn, hf2, hkey, List.lookup]
  refine ⟨by rw [hd2], by rw [hd2], by rw [hd2], by rw [hd1], ?_, ?_⟩
  · rw [hd1]
    simp [List.lookup]
  · rw [hd1]
    by_cases h3 : (checkEIP3009Support env).1 <;>
      by_cases h2 : (checkEIP2612Support env).1 <;> simp [h3, h2]

/-- Witness for C9 at a concrete environment and empty cache. -/
theorem C9_detect_idempotent_witness :
    (detectStrategy witEnv witToken none
        (detectStrategy witEnv witToken none []).2.1).1 =
      (detectStrategy witEnv witToken none []).1 ∧
    (detectStrategy witEnv witToken none []).1 ≠ SweepStrategy.auto := by
  have h := C9_detect_idempotent witEnv witEnv witToken none none []
    (by decide) rfl rfl rfl rfl
  exact ⟨h.1, h.2.2.2.2.2⟩


theorem readUnitBalance_trace_allowed (env : ChainEnv) (i : Bool) (f : String) :
    ((readUnitBalance env i f).2).all dryRunAllowed = true := by
  cases i <;> simp [readUnitBalance, dryRunAllowed]

theorem computeTransferAmount_trace_allowed (env : ChainEnv) (i : Bool)
    (b : Nat) (a : Amount) (d : Nat) :
    ((computeTransferAmount env i b a d).2).all dryRunAllowed = true := by
  cases a with
  | all =>
    cases i
    · simp [computeTransferAmount]
    · cases hg : env.getGasPrice <;>
        simp [computeTransferAmount, hg, dryRunAllowed]
  | value s => simp [computeTransferAmount]

theorem detectStrategy_trace_allowed (env : ChainEnv) (t : String)
    (c : Option TokenCfg) (cache : StrategyCache) :
    ((detectStrategy env t c cache).2.2).all dryRunAllowed = true := by
  unfold detectStrategy
  split
  · simp
  · split
    · simp
    · dsimp only
      split
      · simp [dryRunAllowed]
      · simp [checkEIP3009Support, checkEIP2612Support, dryRunAllowed]

theorem unitPrepare_trace_allowed (ctx : TransferContext) (env : ChainEnv)
    (chainId fromAddress tokenAddress symbol : String) (decimals : Nat)
    (amount : Amount) (strategyOption : Option SweepStrategy)
    (cache : StrategyCache) :
    ((unitPrepare ctx env chainId fromAddress tokenAddress symbol decimals
        amount strategyOption cache).2.2).all dryRunAllowed = true := by
  unfold unitPrepare
  have h1 := readUnitBalance_trace_allowed env
    (decide (toLowerAscii tokenAddress = toLowerAscii NATIVE_TOKEN_ADDRESS))
    fromAddress
  rcases hru : readUnitBalance env
      (decide (toLowerAscii tokenAddress = toLowerAscii NATIVE_TOKEN_ADDRESS))
      fromAddress with ⟨res1, tr1⟩
  rw [hru] at h1
  cases res1 with
  | error m => simpa [hru] using h1
  | ok balance =>
    have h2 := computeTransferAmount_trace_allowed env
      (decide (toLowerAscii tokenAddress = toLowerAscii NATIVE_TOKEN_ADDRESS))
      balance amount decimals
    rcases hca : computeTransferAmount env
        (decide (toLowerAscii tokenAddress = toLowerAscii NATIVE_TOKEN_ADDRESS))
        balance amount decimals with ⟨res2, tr2⟩
    rw [hca] at h2
    cases res2 with
    | error m => simp_all [hru, hca]
    | ok transferAmount =>
      by_cases h0 : transferAmount = 0
      · simp_all [hru, hca, h0]
      · by_cases hgt : transferAmount > balance
        · simp_all [hru, hca, h0, hgt]
        · have h3 := detectStrategy_trace_allowed env tokenAddress
            (getTokenConfig ctx.config chainId symbol) cache
          simp only [hru, hca, h0, hgt, if_false, if_neg h0, if_neg hgt]
          cases strategyOption with
          | none => simp_all
          | some s =>
            by_cases hs : s = SweepStrategy.auto <;> simp_all
theorem unitPrepare_error_insufficient (ctx : TransferContext)
    (env : ChainEnv) (chainId fromAddress tokenAddress symbol : String)
    (decimals : Nat) (amount : Amount)
    (strategyOption : Option SweepStrategy) (cache : StrategyCache)
    (B A : Nat)
    (hbal : (readUnitBalance env
        (decide (toLowerAscii tokenAddress = toLowerAscii NATIVE_TOKEN_ADDRESS))
        fromAddress).1 = .ok B)
    (hA : (computeTransferAmount env
        (decide (toLowerAscii tokenAddress = toLowerAscii NATIVE_TOKEN_ADDRESS))
        B amount decimals).1 = .ok A)
    (hbad : A = 0 ∨ A > B) :
    ∃ m, (unitPrepare ctx env chainId fromAddress tokenAddress symbol
        decimals amount strategyOption cache).1 =
      .error (.hs ⟨.TRANSFER_INSUFFICIENT_BALANCE, m⟩) := by
  unfold unitPrepare
  rcases hru : readUnitBalance env
      (decide (toLowerAscii tokenAddress = toLowerAscii NATIVE_TOKEN_ADDRESS))
      fromAddress with ⟨res1, tr1⟩
  rw [hru] at hbal
  simp only at hbal
  subst hbal
  rcases hca : computeTransferAmount env
      (decide (toLowerAscii tokenAddress = toLowerAscii NATIVE_TOKEN_ADDRESS))
      B amount decimals with ⟨res2, tr2⟩
  rw [hca] at hA
  simp only at hA
  subst hA
  rcases hbad with h0 | hgt
  · subst h0
    exact ⟨"Insufficient balance for transfer", by simp [hru, hca]⟩
  · have h0 : ¬ (A = 0) := by omega
    refine ⟨"Insufficient balance: " ++ env.formatUnits B decimals ++ " < " ++
      env.formatUnits A decimals, ?_⟩
    simp [hru, hca, h0, hgt]

theorem unitPrepare_ok_inv (ctx : TransferContext) (env : ChainEnv)
    (chainId fromAddress tokenAddress symbol : String) (decimals : Nat)
    (amount : Amount) (strategyOption : Option SweepStrategy)
    (cache : StrategyCache) (A : Nat) (strat : SweepStrategy)
    (h : (unitPrepare ctx env chainId fromAddress tokenAddress symbol
        decimals amount strategyOption cache).1 = .ok (A, strat)) :
    ∃ B, (readUnitBalance env
        (decide (toLowerAscii tokenAddress = toLowerAscii NATIVE_TOKEN_ADDRESS))
        fromAddress).1 = .ok B ∧
      (computeTransferAmount env
        (decide (toLowerAscii tokenAddress = toLowerAscii NATIVE_TOKEN_ADDRESS))
        B amount decimals).1 = .ok A ∧
      A ≠ 0 ∧ A ≤ B := by
  unfold unitPrepare at h
  dsimp only at h
  rcases hru : readUnitBalance env
      (decide (toLowerAscii tokenAddress = toLowerAscii NATIVE_TOKEN_ADDRESS))
      fromAddress with ⟨res1, tr1⟩
  rw [hru] at h
  cases res1 with
  | error m => simp at h
  | ok balance =>
    dsimp only at h
    rcases hca : computeTransferAmount env
        (decide (toLowerAscii tokenAddress = toLowerAscii NATIVE_TOKEN_ADDRESS))
        balance amount decimals with ⟨res2, tr2⟩
    rw [hca] at h
    cases res2 with
    | error m => simp at h
    | ok transferAmount =>
      dsimp only at h
      by_cases h0 : transferAmount = 0
      · simp [h0] at h
      · by_cases hgt : transferAmount > balance
        · simp [h0, hgt] at h
        · simp only [h0, hgt, if_neg, if_false] at h
          have hAe : transferAmount = A := by
            simp at h
            exact h.1
          subst hAe
          exact ⟨balance, rfl, by rw [hca], h0, by omega⟩

theorem executeSingleTransfer_error_of_prep (ctx : TransferContext)
    (env : ChainEnv) (chainId : String) (chainConfig : Option ChainCfg)
    (fromAddress fromIdentifier toAddress toIdentifier : String)
    (tokenAddress symbol : String) (decimals : Nat) (amount : Amount)
    (strategyOption : Option SweepStrategy) (dryRun : Bool)
    (cache : StrategyCache) (e : ThrownError) (cache2 : StrategyCache)
    (tr : List Effect)
    (h : unitPrepare ctx env chainId fromAddress tokenAddress symbol decimals
        amount strategyOption cache = (.error e, cache2, tr)) :
    executeSingleTransfer ctx env chainId chainConfig fromAddress
        fromIdentifier toAddress toIdentifier tokenAddress symbol decimals
        amount strategyOption dryRun cache = (.error e, cache2, tr) := by
  unfold executeSingleTransfer
  rw [h]

theorem executeSingleTransfer_ok_shape (ctx : TransferContext)
    (env : ChainEnv) (chainId : String) (chainConfig : Option ChainCfg)
    (fromAddress fromIdentifier toAddress toIdentifier : String)
    (tokenAddress symbol : String) (decimals : Nat) (amount : Amount)
    (strategyOption : Option SweepStrategy) (dryRun : Bool)
    (cache : StrategyCache) (s : TransferSuccess)
    (h : (executeSingleTransfer ctx env chainId chainConfig fromAddress
        fromIdentifier toAddress toIdentifier tokenAddress symbol decimals
        amount strategyOption dryRun cache).1 = .ok s) :
    ∃ A strat, (unitPrepare ctx env chainId fromAddress tokenAddress symbol
        decimals amount strategyOption cache).1 = .ok (A, strat) ∧
      s.fromRef = ⟨fromIdentifier, fromAddress⟩ ∧
      s.toRef = ⟨toIdentifier, toAddress⟩ ∧
      s.amount = ⟨env.formatUnits A decimals, toString A⟩ ∧
      s.strategy = strat ∧
      (dryRun = true → s.tx.hash = "0x") := by
  unfold executeSingleTransfer at h
  rcases hup : unitPrepare ctx env chainId fromAddress tokenAddress symbol
      decimals amount strategyOption cache with ⟨res, cache2, tr⟩
  rw [hup] at h
  cases res with
  | error e => simp at h
  | ok pair =>
    rcases pair with ⟨A, strat⟩
    refine ⟨A, strat, rfl, ?_⟩
    cases dryRun with
    | true =>
      simp only [if_true] at h
      cases h
      exact ⟨rfl, rfl, rfl, rfl, fun _ => rfl⟩
    | false =>
      simp only [if_false, Bool.false_eq_true] at h
      cases hsig : getSignerAccount ctx fromIdentifier with
      | none => rw [hsig] at h; simp at h
      | some acc =>
        rw [hsig] at h
        rcases hdp : dispatchStrategy env
            (decide (toLowerAscii tokenAddress = toLowerAscii NATIVE_TOKEN_ADDRESS))
            strat fromAddress toAddress A with ⟨dres, tr4⟩
        rw [hdp] at h
        cases dres with
        | error e => simp at h
        | ok txHash =>
          cases hw : env.waitForReceipt txHash with
          | error m => simp only [hw] at h; simp at h
          | ok receipt =>
            simp only [hw] at h
            cases h
            exact ⟨rfl, rfl, rfl, rfl, fun hd => by cases hd⟩


theorem decide_native_self :
    (decide (toLowerAscii NATIVE_TOKEN_ADDRESS =
      toLowerAscii NATIVE_TOKEN_ADDRESS)) = true :=
  decide_eq_true rfl

/-- C2: for a native-asset transfer with amount "all", checked balance B
and current gas price P, the computed transfer amount is B - 2*P*21000
when that value is positive (every success carries exactly that raw
amount, and success implies positivity); when B - 2*P*21000 <= 0 the
unit fails with the InsufficientBalance code and its trace holds only
reads — no signature, no submission; and in general every unit whose
computed amount is zero or exceeds the checked balance fails with
InsufficientBalance over a read-only trace. -/
theorem C2_sweep_all_native (ctx : TransferContext) (env : ChainEnv)
    (chainId : String) (chainConfig : Option ChainCfg)
    (fromAddress fromIdentifier toAddress toIdentifier symbol : String)
    (decimals : Nat) (strategyOption : Option SweepStrategy) (dryRun : Bool)
    (cache : StrategyCache) (B P : Nat)
    (hB : env.getBalance fromAddress = .ok B)
    (hP : env.getGasPrice = .ok P) :
    (B > 2 * P * 21000 →
      (computeTransferAmount env true B Amount.all decimals).1 =
        .ok (B - 2 * P * 21000)) ∧
    (∀ s, (executeSingleTransfer ctx env chainId chainConfig fromAddress
        fromIdentifier toAddress toIdentifier NATIVE_TOKEN_ADDRESS symbol
        decimals Amount.all strategyOption dryRun cache).1 = .ok s →
      B > 2 * P * 21000 ∧ s.amount.raw = toString (B - 2 * P * 21000)) ∧
    (B ≤ 2 * P * 21000 →
      (executeSingleTransfer ctx env chainId chainConfig fromAddress
          fromIdentifier toAddress toIdentifier NATIVE_TOKEN_ADDRESS symbol
          decimals Amount.all strategyOption dryRun cache).1 =
        .error (.hs ⟨.TRANSFER_INSUFFICIENT_BALANCE,
          "Insufficient balance for transfer"⟩) ∧
      ((executeSingleTransfer ctx env chainId chainConfig fromAddress
          fromIdentifier toAddress toIdentifier NATIVE_TOKEN_ADDRESS symbol
          decimals Amount.all strategyOption dryRun cache).2.2).all
        dryRunAllowed = true) ∧
    (∀ tokenAddress2 amount2 cache2 B2 A2,
      (readUnitBalance env
          (decide (toLowerAscii tokenAddress2 = toLowerAscii NATIVE_TOKEN_ADDRESS))
          fromAddress).1 = .ok B2 →
      (computeTransferAmount env
          (decide (toLowerAscii tokenAddress2 = toLowerAscii NATIVE_TOKEN_ADDRESS))
          B2 amount2 decimals).1 = .ok A2 →
      (A2 = 0 ∨ A2 > B2) →
      ∃ m, (executeSingleTransfer ctx env chainId chainConfig fromAddress
          fromIdentifier toAddress toIdentifier tokenAddress2 symbol decimals
          amount2 strategyOption dryRun cache2).1 =
        .error (.hs ⟨.TRANSFER_INSUFFICIENT_BALANCE, m⟩) ∧
        ((executeSingleTransfer ctx env chainId chainConfig fromAddress
          fromIdentifier toAddress toIdentifier tokenAddress2 symbol decimals
          amount2 strategyOption dryRun cache2).2.2).all dryRunAllowed =
          true) := by
  have hcompute : (computeTransferAmount env true B Amount.all decimals).1 =
      .ok (if B > 2 * P * 21000 then B - 2 * P * 21000 else 0) := by
    simp only [computeTransferAmount, hP]
    rw [show P * 21000 * 2 = 2 * P * 21000 by ring]
    simp
  refine ⟨?_, ?_, ?_, ?_⟩
  · intro hgt
    rw [hcompute, if_pos hgt]
  · intro s hs
    rcases executeSingleTransfer_ok_shape ctx env chainId chainConfig
      fromAddress fromIdentifier toAddress toIdentifier NATIVE_TOKEN_ADDRESS
      symbol decimals Amount.all strategyOption dryRun cache s hs with
      ⟨A, strat, hup, _, _, hamount, _, _⟩
    rcases unitPrepare_ok_inv ctx env chainId fromAddress NATIVE_TOKEN_ADDRESS
      symbol decimals Amount.all strategyOption cache A strat hup with
      ⟨B2, hbal, hca, hA0, _⟩
    rw [decide_native_self] at hbal hca
    simp only [readUnitBalance, if_pos, hB] at hbal
    have hBB : B2 = B := by
      simp at hbal
      omega
    rw [hBB] at hca
    rw [hcompute] at hca
    by_cases hgt : B > 2 * P * 21000
    · rw [if_pos hgt] at hca
      simp at hca
      refine ⟨hgt, ?_⟩
      rw [hamount, ← hca]
    · rw [if_neg hgt] at hca
      simp at hca
      exact absurd hca.symm hA0
  · intro hle
    have hup : unitPrepare ctx env chainId fromAddress NATIVE_TOKEN_ADDRESS
        symbol decimals Amount.all strategyOption cache =
        (.error (.hs ⟨.TRANSFER_INSUFFICIENT_BALANCE,
          "Insufficient balance for transfer"⟩), cache,
          [Effect.getBalance fromAddress, Effect.getGasPrice]) := by
      unfold unitPrepare
      dsimp only
      rw [decide_native_self]
      simp only [readUnitBalance, if_pos, computeTransferAmount, hB, hP]
      rw [show P * 21000 * 2 = 2 * P * 21000 by ring]
      rw [if_neg (by omega : ¬ B > 2 * P * 21000)]
      simp
    rw [executeSingleTransfer_error_of_prep ctx env chainId chainConfig
      fromAddress fromIdentifier toAddress toIdentifier NATIVE_TOKEN_ADDRESS
      symbol decimals Amount.all strategyOption dryRun cache _ _ _ hup]
    exact ⟨rfl, by simp [dryRunAllowed]⟩
  · intro tokenAddress2 amount2 cache2 B2 A2 hbal hca hbad
    rcases unitPrepare_error_insufficient ctx env chainId fromAddress
      tokenAddress2 symbol decimals amount2 strategyOption cache2 B2 A2 hbal
      hca hbad with ⟨m, hup1⟩
    rcases hup : unitPrepare ctx env chainId fromAddress tokenAddress2 symbol
        decimals amount2 strategyOption cache2 with ⟨res, c2, tr⟩
    rw [hup] at hup1
    simp only at hup1
    subst hup1
    rw [executeSingleTransfer_error_of_prep ctx env chainId chainConfig
      fromAddress fromIdentifier toAddress toIdentifier tokenAddress2 symbol
      decimals amount2 strategyOption dryRun cache2 _ _ _ hup]
    refine ⟨m, rfl, ?_⟩
    have := unitPrepare_trace_allowed ctx env chainId fromAddress
      tokenAddress2 symbol decimals amount2 strategyOption cache2
    rw [hup] at this
    exact this

/-- Witness for C2: sweep-all amount 1000000 - 2*2*21000 = 916000 at the
concrete environment, and the InsufficientBalance failure at balance 100
with gas price 2. -/
theorem C2_sweep_all_native_witness :
    (computeTransferAmount witEnv true 1000000 Amount.all 18).1 =
      .ok 916000 ∧
    (executeSingleTransfer witCtx { witEnv with getBalance := fun _ => .ok 100 }
        "eip155:1" none "0xa" "0" "0xb" "hot" NATIVE_TOKEN_ADDRESS "ETH" 18
        Amount.all none false []).1 =
      .error (.hs ⟨.TRANSFER_INSUFFICIENT_BALANCE,
        "Insufficient balance for transfer"⟩) := by
  have h1 := C2_sweep_all_native witCtx witEnv "eip155:1" none "0xa" "0"
    "0xb" "hot" "ETH" 18 none false [] 1000000 2 rfl rfl
  have h2 := C2_sweep_all_native witCtx
    { witEnv with getBalance := fun _ => .ok 100 } "eip155:1" none "0xa" "0"
    "0xb" "hot" "ETH" 18 none false [] 100 2 rfl rfl
  refine ⟨?_, (h2.2.2.1 (by norm_num)).1⟩
  have := h1.1 (by norm_num)
  simpa using this


theorem executeSingleTransfer_dry_trace (ctx : TransferContext)
    (env : ChainEnv) (chainId : String) (chainConfig : Option ChainCfg)
    (fromAddress fromIdentifier toAddress toIdentifier : String)
    (tokenAddress symbol : String) (decimals : Nat) (amount : Amount)
    (strategyOption : Option SweepStrategy) (cache : StrategyCache) :
    (executeSingleTransfer ctx env chainId chainConfig fromAddress
        fromIdentifier toAddress toIdentifier tokenAddress symbol decimals
        amount strategyOption true cache).2.2 =
      (unitPrepare ctx env chainId fromAddress tokenAddress symbol decimals
        amount strategyOption cache).2.2 := by
  unfold executeSingleTransfer
  rcases hup : unitPrepare ctx env chainId fromAddress tokenAddress symbol
      decimals amount strategyOption cache with ⟨res, cache2, tr⟩
  cases res with
  | error e => simp
  | ok pair => rcases pair with ⟨A, strat⟩; simp

theorem dispatchStrategy_ok_hash (env : ChainEnv) (i : Bool)
    (strat : SweepStrategy) (f t : String) (A : Nat) (h : String)
    (hd : (dispatchStrategy env i strat f t A).1 = .ok h) :
    (∃ v, Effect.sendTransaction t v h ∈ (dispatchStrategy env i strat f t A).2) ∨
    (∃ fn, Effect.writeContract fn h ∈ (dispatchStrategy env i strat f t A).2) := by
  cases i with
  | true =>
    cases hs : env.sendTransaction t A with
    | error m =>
      have hEq : dispatchStrategy env true strat f t A =
          (.error (.external m), []) := by
        simp [dispatchStrategy, hs]
      rw [hEq] at hd
      simp at hd
    | ok h2 =>
      have hEq : dispatchStrategy env true strat f t A =
          (.ok h2, [Effect.sendTransaction t A h2]) := by
        simp [dispatchStrategy, hs]
      rw [hEq] at hd
      simp at hd
      subst hd
      rw [hEq]
      exact Or.inl ⟨A, by simp⟩
  | false =>
    cases strat with
    | legacy =>
      cases hs : env.writeTransfer with
      | error m =>
        have hEq : dispatchStrategy env false SweepStrategy.legacy f t A =
            (.error (.external m), []) := by
          simp [dispatchStrategy, hs]
        rw [hEq] at hd
        simp at hd
      | ok h2 =>
        have hEq : dispatchStrategy env false SweepStrategy.legacy f t A =
            (.ok h2, [Effect.writeContract "transfer" h2]) := by
          simp [dispatchStrategy, hs]
        rw [hEq] at hd
        simp at hd
        subst hd
        rw [hEq]
        exact Or.inr ⟨"transfer", by simp⟩
    | eip2612 =>
      cases hn : env.readName with
      | error m =>
        have hEq : dispatchStrategy env false SweepStrategy.eip2612 f t A =
            (.error (.external m), [Effect.readContract "name"]) := by
          simp [dispatchStrategy, hn]
        rw [hEq] at hd
        simp at hd
      | ok nm =>
        cases hk : env.readNonces f with
        | error m =>
          have hEq : dispatchStrategy env false SweepStrategy.eip2612 f t A =
              (.error (.external m),
               [Effect.readContract "name", Effect.readContract "nonces"]) := by
            simp [dispatchStrategy, hn, hk]
          rw [hEq] at hd
          simp at hd
        | ok k =>
          cases hp : env.writePermit with
          | error m =>
            have hEq : dispatchStrategy env false SweepStrategy.eip2612 f t A =
                (.error (.external m),
                 [Effect.readContract "name", Effect.readContract "nonces",
                  Effect.getChainId, Effect.signTypedData "Permit"]) := by
              simp [dispatchStrategy, hn, hk, hp]
            rw [hEq] at hd
            simp at hd
          | ok h1 =>
            cases hq : env.writeTransferAfterPermit with
            | error m =>
              have hEq : dispatchStrategy env false SweepStrategy.eip2612 f t A =
                  (.error (.external m),
                   [Effect.readContract "name", Effect.readContract "nonces",
                    Effect.getChainId, Effect.signTypedData "Permit",
                    Effect.writeContract "permit" h1]) := by
                simp [dispatchStrategy, hn, hk, hp, hq]
              rw [hEq] at hd
              simp at hd
            | ok h2 =>
              have hEq : dispatchStrategy env false SweepStrategy.eip2612 f t A =
                  (.ok h1,
                   [Effect.readContract "name", Effect.readContract "nonces",
                    Effect.getChainId, Effect.signTypedData "Permit",
                    Effect.writeContract "permit" h1,
                    Effect.writeContract "transfer" h2]) := by
                simp [dispatchStrategy, hn, hk, hp, hq]
              rw [hEq] at hd
              simp at hd
              subst hd
              rw [hEq]
              exact Or.inr ⟨"permit", by simp⟩
    | eip3009 =>
      cases hn : env.readName with
      | error m =>
        have hEq : dispatchStrategy env false SweepStrategy.eip3009 f t A =
            (.error (.external m), [Effect.readContract "name"]) := by
          simp [dispatchStrategy, hn]
        rw [hEq] at hd
        simp at hd
      | ok nm =>
        cases hw : env.writeTransferWithAuthorization with
        | error m =>
          have hEq : dispatchStrategy env false SweepStrategy.eip3009 f t A =
              (.error (.external m),
               [Effect.readContract "name", Effect.getChainId,
                Effect.signTypedData "TransferWithAuthorization"]) := by
            simp [dispatchStrategy, hn, hw]
          rw [hEq] at hd
          simp at hd
        | ok h2 =>
          have hEq : dispatchStrategy env false SweepStrategy.eip3009 f t A =
              (.ok h2,
               [Effect.readContract "name", Effect.getChainId,
                Effect.signTypedData "TransferWithAuthorization",
                Effect.writeContract "transferWithAuthorization" h2]) := by
            simp [dispatchStrategy, hn, hw]
          rw [hEq] at hd
          simp at hd
          subst hd
          rw [hEq]
          exact Or.inr ⟨"transferWithAuthorization", by simp⟩
    | auto => simp [dispatchStrategy] at hd
    | eip7702 => simp [dispatchStrategy] at hd

/-- C6 counterexample: a dry-run native sweep-all unit succeeds with the
sentinel "0x" hash, the strategy detection of a native token contributes
no effects, and yet the unit's trace contains the gas-price read of the
sweep-amount computation — a chain interaction that is neither the
balance read nor strategy detection. -/
theorem C6_counterexample :
    (∃ s, (executeSingleTransfer witCtx witEnv "eip155:1" none "0xa" "0"
        "0xb" "hot" NATIVE_TOKEN_ADDRESS "ETH" 18 Amount.all none true
        []).1 = .ok s ∧ s.tx.hash = "0x") ∧
    (executeSingleTransfer witCtx witEnv "eip155:1" none "0xa" "0" "0xb"
        "hot" NATIVE_TOKEN_ADDRESS "ETH" 18 Amount.all none true []).2.2 =
      [Effect.getBalance "0xa", Effect.getGasPrice] ∧
    Effect.getGasPrice ∈ (executeSingleTransfer witCtx witEnv "eip155:1"
        none "0xa" "0" "0xb" "hot" NATIVE_TOKEN_ADDRESS "ETH" 18 Amount.all
        none true []).2.2 ∧
    (detectStrategy witEnv NATIVE_TOKEN_ADDRESS none []).2.2 = [] := by
  refine ⟨⟨_, by rfl, rfl⟩, by rfl, by decide, by rfl⟩

/-- C6 amended: a dry-run unit that succeeds carries the sentinel "0x"
transaction hash; its whole trace (success or not) consists of read-only
effects — the balance read, the gas-price read of the sweep-amount
computation, and the chain-id read and capability probes of strategy
detection — so no signature is produced, no nonce is consumed or read,
and nothing is submitted or awaited; the strategy and amount of a
dry-run success equal those of a real run from the same state; and every
non-dry-run success carries the hash returned by the submission call
recorded in its trace. -/
theorem C6_dry_run (ctx : TransferContext) (env : ChainEnv)
    (chainId : String) (chainConfig : Option ChainCfg)
    (fromAddress fromIdentifier toAddress toIdentifier : String)
    (tokenAddress symbol : String) (decimals : Nat) (amount : Amount)
    (strategyOption : Option SweepStrategy) (cache : StrategyCache) :
    (∀ s, (executeSingleTransfer ctx env chainId chainConfig fromAddress
        fromIdentifier toAddress toIdentifier tokenAddress symbol decimals
        amount strategyOption true cache).1 = .ok s → s.tx.hash = "0x") ∧
    ((executeSingleTransfer ctx env chainId chainConfig fromAddress
        fromIdentifier toAddress toIdentifier tokenAddress symbol decimals
        amount strategyOption true cache).2.2).all dryRunAllowed = true ∧
    (∀ d s, (executeSingleTransfer ctx env chainId chainConfig fromAddress
        fromIdentifier toAddress toIdentifier tokenAddress symbol decimals
        amount strategyOption true cache).1 = .ok d →
      (executeSingleTransfer ctx env chainId chainConfig fromAddress
        fromIdentifier toAddress toIdentifier tokenAddress symbol decimals
        amount strategyOption false cache).1 = .ok s →
      d.strategy = s.strategy ∧ d.amount = s.amount) ∧
    (∀ s, (executeSingleTransfer ctx env chainId chainConfig fromAddress
        fromIdentifier toAddress toIdentifier tokenAddress symbol decimals
        amount strategyOption false cache).1 = .ok s →
      ∃ e ∈ (executeSingleTransfer ctx env chainId chainConfig fromAddress
          fromIdentifier toAddress toIdentifier tokenAddress symbol decimals
          amount strategyOption false cache).2.2,
        (∃ v, e = Effect.sendTransaction toAddress v s.tx.hash) ∨
        (∃ fn, e = Effect.writeContract fn s.tx.hash)) := by
  refine ⟨?_, ?_, ?_, ?_⟩
  · intro s hs
    rcases executeSingleTransfer_ok_shape ctx env chainId chainConfig
      fromAddress fromIdentifier toAddress toIdentifier tokenAddress symbol
      decimals amount strategyOption true cache s hs with
      ⟨A, strat, _, _, _, _, _, hhash⟩
    exact hhash rfl
  · rw [executeSingleTransfer_dry_trace]
    exact unitPrepare_trace_allowed ctx env chainId fromAddress tokenAddress
      symbol decimals amount strategyOption cache
  · intro d s hd hs
    rcases executeSingleTransfer_ok_shape ctx env chainId chainConfig
      fromAddress fromIdentifier toAddress toIdentifier tokenAddress symbol
      decimals amount strategyOption true cache d hd with
      ⟨A1, strat1, hup1, _, _, hamount1, hstrat1, _⟩
    rcases executeSingleTransfer_ok_shape ctx env chainId chainConfig
      fromAddress fromIdentifier toAddress toIdentifier tokenAddress symbol
      decimals amount strategyOption false cache s hs with
      ⟨A2, strat2, hup2, _, _, hamount2, hstrat2, _⟩
    rw [hup1] at hup2
    have hAe : A1 = A2 ∧ strat1 = strat2 := by
      simp at hup2
      exact ⟨hup2.1, hup2.2⟩
    rcases hAe with ⟨hA, hstr⟩
    subst hA
    subst hstr
    rw [hstrat1, hstrat2, hamount1, hamount2]
    exact ⟨rfl, rfl⟩
  · intro s hs
    unfold executeSingleTransfer at hs ⊢
    dsimp only at hs ⊢
    rcases hup : unitPrepare ctx env chainId fromAddress tokenAddress symbol
        decimals amount strategyOption cache with ⟨res, cache2, tr⟩
    try rw [hup] at hs ⊢
    try simp only [hup] at hs ⊢
    cases res with
    | error e => simp at hs
    | ok pair =>
      rcases pair with ⟨A, strat⟩
      dsimp only at hs ⊢
      try rw [if_neg Bool.false_ne_true] at hs ⊢
      cases hsig : getSignerAccount ctx fromIdentifier with
      | none => simp_all
      | some acc =>
        try rw [hsig] at hs ⊢
        try simp only [hsig] at hs ⊢
        try dsimp only at hs ⊢
        rcases hdp : dispatchStrategy env
            (decide (toLowerAscii tokenAddress = toLowerAscii NATIVE_TOKEN_ADDRESS))
            strat fromAddress toAddress A with ⟨dres, tr4⟩
        try rw [hdp] at hs ⊢
        try simp only [hdp] at hs ⊢
        cases dres with
        | error e => simp at hs
        | ok txHash =>
          try dsimp only at hs ⊢
          cases hw : env.waitForReceipt txHash with
          | error m => simp_all
          | ok receipt =>
            try simp only [hw] at hs ⊢
            try dsimp only at hs ⊢
            cases hs
            rcases dispatchStrategy_ok_hash env
                (decide (toLowerAscii tokenAddress = toLowerAscii NATIVE_TOKEN_ADDRESS))
                strat fromAddress toAddress A txHash (by rw [hdp]) with
              ⟨v, hv⟩ | ⟨fn, hfn⟩
            · rw [hdp] at hv
              exact ⟨Effect.sendTransaction toAddress v txHash,
                by simp [hv], Or.inl ⟨v, rfl⟩⟩
            · rw [hdp] at hfn
              exact ⟨Effect.writeContract fn txHash,
                by simp [hfn], Or.inr ⟨fn, rfl⟩⟩

/-- Witness for C6 at the concrete fixtures: the dry run and the real run
of the same native sweep agree on strategy and amount, and the dry hash
is sentinel. -/
theorem C6_dry_run_witness :
    (∃ d s, (executeSingleTransfer witCtx witEnv "eip155:1" none "0xaddr0"
        "0" "0xb" "hot" NATIVE_TOKEN_ADDRESS "ETH" 18 Amount.all none true
        []).1 = .ok d ∧
      (executeSingleTransfer witCtx witEnv "eip155:1" none "0xaddr0" "0"
        "0xb" "hot" NATIVE_TOKEN_ADDRESS "ETH" 18 Amount.all none false
        []).1 = .ok s ∧
      d.tx.hash = "0x" ∧ d.strategy = s.strategy ∧ d.amount = s.amount) := by
  have h := C6_dry_run witCtx witEnv "eip155:1" none "0xaddr0" "0" "0xb"
    "hot" NATIVE_TOKEN_ADDRESS "ETH" 18 Amount.all none []
  refine ⟨_, _, rfl, rfl, h.1 _ rfl, ?_⟩
  exact h.2.2.1 _ _ rfl rfl


theorem not_mem_wait_of_allowed (tr : List Effect)
    (h : tr.all dryRunAllowed = true) (x : String) :
    Effect.waitForReceipt x ∉ tr := by
  intro hx
  have hall := List.all_eq_true.mp h _ hx
  simp [dryRunAllowed] at hall

/-- C10: on the Approval (eip2612) path of a non-dry-run transfer whose
permit and transfer submissions both succeed, the success outcome's
transaction hash is the permit transaction's hash and the receipt awaited
is the permit transaction's; the hash of the subsequent token-transfer
transaction appears in the trace only as a submitted write — its receipt
is never awaited before the success is returned. -/
theorem C10_eip2612_permit_hash (ctx : TransferContext) (env : ChainEnv)
    (chainId : String) (chainConfig : Option ChainCfg)
    (fromAddress fromIdentifier toAddress toIdentifier : String)
    (tokenAddress symbol : String) (decimals : Nat) (amount : Amount)
    (strategyOption : Option SweepStrategy) (cache : StrategyCache)
    (A : Nat) (acc : Signer) (nm : String) (k : Nat) (h1 h2 : String)
    (receipt : Receipt)
    (hup : (unitPrepare ctx env chainId fromAddress tokenAddress symbol
        decimals amount strategyOption cache).1 =
      .ok (A, SweepStrategy.eip2612))
    (hnn : toLowerAscii tokenAddress ≠ toLowerAscii NATIVE_TOKEN_ADDRESS)
    (hsig : getSignerAccount ctx fromIdentifier = some acc)
    (hname : env.readName = .ok nm)
    (hnonce : env.readNonces fromAddress = .ok k)
    (hpermit : env.writePermit = .ok h1)
    (hpull : env.writeTransferAfterPermit = .ok h2)
    (hwait : env.waitForReceipt h1 = .ok receipt) :
    ∃ s, (executeSingleTransfer ctx env chainId chainConfig fromAddress
        fromIdentifier toAddress toIdentifier tokenAddress symbol decimals
        amount strategyOption false cache).1 = .ok s ∧
      s.tx.hash = h1 ∧
      Effect.writeContract "permit" h1 ∈
        (executeSingleTransfer ctx env chainId chainConfig fromAddress
          fromIdentifier toAddress toIdentifier tokenAddress symbol decimals
          amount strategyOption false cache).2.2 ∧
      Effect.writeContract "transfer" h2 ∈
        (executeSingleTransfer ctx env chainId chainConfig fromAddress
          fromIdentifier toAddress toIdentifier tokenAddress symbol decimals
          amount strategyOption false cache).2.2 ∧
      Effect.waitForReceipt h1 ∈
        (executeSingleTransfer ctx env chainId chainConfig fromAddress
          fromIdentifier toAddress toIdentifier tokenAddress symbol decimals
          amount strategyOption false cache).2.2 ∧
      (h2 ≠ h1 → Effect.waitForReceipt h2 ∉
        (executeSingleTransfer ctx env chainId chainConfig fromAddress
          fromIdentifier toAddress toIdentifier tokenAddress symbol decimals
          amount strategyOption false cache).2.2) := by
  have hdisp : dispatchStrategy env
      (decide (toLowerAscii tokenAddress = toLowerAscii NATIVE_TOKEN_ADDRESS))
      SweepStrategy.eip2612 fromAddress toAddress A =
      (.ok h1,
       [Effect.readContract "name", Effect.readContract "nonces",
        Effect.getChainId, Effect.signTypedData "Permit",
        Effect.writeContract "permit" h1,
        Effect.writeContract "transfer" h2]) := by
    rw [decide_eq_false hnn]
    simp [dispatchStrategy, hname, hnonce, hpermit, hpull]
  rcases hupf : unitPrepare ctx env chainId fromAddress tokenAddress symbol
      decimals amount strategyOption cache with ⟨res, cache2, tr⟩
  rw [hupf] at hup
  simp only at hup
  subst hup
  have htr := unitPrepare_trace_allowed ctx env chainId fromAddress
    tokenAddress symbol decimals amount strategyOption cache
  rw [hupf] at htr
  have hexec : executeSingleTransfer ctx env chainId chainConfig fromAddress
      fromIdentifier toAddress toIdentifier tokenAddress symbol decimals
      amount strategyOption false cache =
      (.ok
        { fromRef := ⟨fromIdentifier, fromAddress⟩
          toRef := ⟨toIdentifier, toAddress⟩
          chain := chainInfoOf chainConfig chainId
          tokenSymbol := symbol
          tokenAddress := tokenAddress
          amount := ⟨env.formatUnits A decimals, toString A⟩
          strategy := SweepStrategy.eip2612
          tx := ⟨h1, some receipt.blockNumber, some receipt.gasUsed,
            some receipt.effectiveGasPrice⟩ },
        cache2,
        tr ++
          [Effect.readContract "name", Effect.readContract "nonces",
           Effect.getChainId, Effect.signTypedData "Permit",
           Effect.writeContract "permit" h1,
           Effect.writeContract "transfer" h2] ++
          [Effect.waitForReceipt h1]) := by
    unfold executeSingleTransfer
    rw [hupf]
    simp only [hsig, hdisp, hwait]
    simp
  rw [hexec]
  refine ⟨_, rfl, rfl, by simp, by simp, by simp, ?_⟩
  intro hne hmem
  simp only [List.mem_append, List.mem_cons, List.mem_singleton] at hmem
  rcases hmem with (hmem | hmem) | hmem
  · exact not_mem_wait_of_allowed tr htr h2 hmem
  · simp at hmem
  · simp at hmem
    exact hne hmem

/-- Witness for C10 at the concrete fixtures with a forced eip2612
strategy: the success hash is the permit hash "0xpermit" and no receipt is
awaited for the discarded transfer hash "0xpull". -/
theorem C10_eip2612_permit_hash_witness :
    ∃ s, (executeSingleTransfer witCtx witEnv "eip155:1" none "0xaddr0" "0"
        "0xb" "hot" witToken "TOK" 6 Amount.all (some SweepStrategy.eip2612)
        false []).1 = .ok s ∧
      s.tx.hash = "0xpermit" ∧
      Effect.waitForReceipt "0xpull" ∉
        (executeSingleTransfer witCtx witEnv "eip155:1" none "0xaddr0" "0"
          "0xb" "hot" witToken "TOK" 6 Amount.all
          (some SweepStrategy.eip2612) false []).2.2 := by
  rcases C10_eip2612_permit_hash witCtx witEnv "eip155:1" none "0xaddr0" "0"
      "0xb" "hot" witToken "TOK" 6 Amount.all (some SweepStrategy.eip2612)
      [] 500 "signer0" "Token" 7 "0xpermit" "0xpull" ⟨10, 21000, 2⟩ rfl
      (by decide) rfl rfl rfl rfl rfl rfl with
    ⟨s, hok, hhash, _, _, _, hnot⟩
  exact ⟨s, hok, hhash, hnot (by decide)⟩


theorem transferUnitsLoop_length (ctx : TransferContext) (env : ChainEnv)
    (chainId : String) (chainConfig : Option ChainCfg)
    (toAddress toIdentifier tokenAddress symbol : String) (decimals : Nat)
    (amount : Amount) (strategyOption : Option SweepStrategy) (dryRun : Bool)
    (ps : List Party) :
    ∀ cache, (transferUnitsLoop ctx env chainId chainConfig toAddress
      toIdentifier tokenAddress symbol decimals amount strategyOption dryRun
      ps cache).1.length = ps.length := by
  induction ps with
  | nil => intro cache; rfl
  | cons p ps ih =>
    intro cache
    simp only [transferUnitsLoop]
    simp [ih]

theorem transferUnitsLoop_fromParty (ctx : TransferContext) (env : ChainEnv)
    (chainId : String) (chainConfig : Option ChainCfg)
    (toAddress toIdentifier tokenAddress symbol : String) (decimals : Nat)
    (amount : Amount) (strategyOption : Option SweepStrategy) (dryRun : Bool)
    (ps : List Party) :
    ∀ cache, ((transferUnitsLoop ctx env chainId chainConfig toAddress
      toIdentifier tokenAddress symbol decimals amount strategyOption dryRun
      ps cache).1.map TransferResultModel.fromParty) = ps := by
  induction ps with
  | nil => intro cache; rfl
  | cons p ps ih =>
    intro cache
    simp only [transferUnitsLoop]
    cases hr : (executeSingleTransfer ctx env chainId chainConfig p.address
        p.identifier toAddress toIdentifier tokenAddress symbol decimals
        amount strategyOption dryRun cache).1 with
    | ok s =>
      rcases executeSingleTransfer_ok_shape ctx env chainId chainConfig
        p.address p.identifier toAddress toIdentifier tokenAddress symbol
        decimals amount strategyOption dryRun cache s hr with
        ⟨A, strat, _, hfrom, _⟩
      simp only [hr, List.map_cons, ih]
      simp [TransferResultModel.fromParty, hfrom]
    | error t =>
      simp only [hr, List.map_cons, ih]
      simp [TransferResultModel.fromParty]

/-- C1 counterexample: at a request whose from-specification "0-1"
expands to two source addresses, executeTransfer returns a single outcome
— the one of the last expanded address (identifier "1") — not a list of
one outcome per source address. -/
theorem C1_counterexample :
    ((executeTransferPrep (fun _ => false) witCtx witEnv
        ⟨"0-1", "hot", "1", "TOK", Amount.all, none, true⟩).1).map
      (fun p => p.fromAddresses.map Party.identifier) = .ok ["0", "1"] ∧
    ∃ s, (executeTransfer (fun _ => false) witCtx witEnv
        ⟨"0-1", "hot", "1", "TOK", Amount.all, none, true⟩ []).1 =
      some (TransferResultModel.success s) ∧ s.fromRef.identifier = "1" := by
  exact ⟨by rfl, ⟨_, by rfl, rfl⟩⟩

/-- C1 amended: the per-address loop produces exactly one outcome per
expanded source address, and executeTransfer returns the single outcome
when the specification expanded to exactly one address — but only the
LAST outcome of the per-address list when it expanded to several. -/
theorem C1_single_or_last (isAddr : String → Bool) (ctx : TransferContext)
    (env : ChainEnv) (options : TransferOptions) (cache : StrategyCache)
    (prep : PrepResult)
    (hp : (executeTransferPrep isAddr ctx env options).1 = .ok prep) :
    (transferUnitsLoop ctx env prep.chainId prep.chainConfig prep.toAddress
        options.toO prep.tokenAddress prep.symbol prep.decimals
        options.amount options.strategy options.dryRun prep.fromAddresses
        cache).1.length = prep.fromAddresses.length ∧
    (prep.fromAddresses.length = 1 →
      (executeTransfer isAddr ctx env options cache).1 =
        (transferUnitsLoop ctx env prep.chainId prep.chainConfig
          prep.toAddress options.toO prep.tokenAddress prep.symbol
          prep.decimals options.amount options.strategy options.dryRun
          prep.fromAddresses cache).1.head?) ∧
    (prep.fromAddresses.length ≠ 1 →
      (executeTransfer isAddr ctx env options cache).1 =
        (transferUnitsLoop ctx env prep.chainId prep.chainConfig
          prep.toAddress options.toO prep.tokenAddress prep.symbol
          prep.decimals options.amount options.strategy options.dryRun
          prep.fromAddresses cache).1.getLast?) := by
  have hlen := transferUnitsLoop_length ctx env prep.chainId prep.chainConfig
    prep.toAddress options.toO prep.tokenAddress prep.symbol prep.decimals
    options.amount options.strategy options.dryRun prep.fromAddresses cache
  refine ⟨hlen, ?_, ?_⟩ <;> intro hn <;>
  · unfold executeTransfer
    rcases hpp : executeTransferPrep isAddr ctx env options with ⟨res, tr⟩
    rw [hpp] at hp
    simp only at hp
    subst hp
    simp only
    rw [hlen]
    simp [hn]

/-- Witness for C1's amended statement at the two-address fixture
request: the loop outcome list has length two and executeTransfer
returns its last element. -/
theorem C1_single_or_last_witness :
    (transferUnitsLoop witCtx witEnv "eip155:1"
        (some ⟨1, "ethereum", "ETH", []⟩) "0xhot" "hot" witToken "TOK" 6
        Amount.all none true [⟨"0", "0xaddr0"⟩, ⟨"1", "0xaddr1"⟩]
        []).1.length = 2 ∧
    (executeTransfer (fun _ => false) witCtx witEnv
        ⟨"0-1", "hot", "1", "TOK", Amount.all, none, true⟩ []).1 =
      (transferUnitsLoop witCtx witEnv "eip155:1"
        (some ⟨1, "ethereum", "ETH", []⟩) "0xhot" "hot" witToken "TOK" 6
        Amount.all none true [⟨"0", "0xaddr0"⟩, ⟨"1", "0xaddr1"⟩]
        []).1.getLast? := by
  have h := C1_single_or_last (fun _ => false) witCtx witEnv
    ⟨"0-1", "hot", "1", "TOK", Amount.all, none, true⟩ []
    ⟨"eip155:1", some ⟨1, "ethereum", "ETH", []⟩,
      [⟨"0", "0xaddr0"⟩, ⟨"1", "0xaddr1"⟩], "0xhot", witToken, "TOK", 6⟩
    (by rfl)
  exact ⟨h.1, h.2.2 (by decide)⟩

/-- C8: the per-address loop yields exactly one outcome per expanded
source address, each outcome referring to its own source address; a unit
that throws becomes a Failure outcome carrying the from/to identifiers
and the catch block's error code and message, and the loop still
processes the remaining addresses; executeTransfer catches pre-loop
errors into a single Failure outcome instead of throwing. -/
theorem C8_failure_isolation (isAddr : String → Bool)
    (ctx : TransferContext) (env : ChainEnv) (chainId : String)
    (chainConfig : Option ChainCfg)
    (toAddress toIdentifier tokenAddress symbol : String) (decimals : Nat)
    (amount : Amount) (strategyOption : Option SweepStrategy) (dryRun : Bool)
    (ps : List Party) (cache : StrategyCache) (p : Party) (t : ThrownError)
    (options : TransferOptions) (cache0 : StrategyCache) :
    ((transferUnitsLoop ctx env chainId chainConfig toAddress toIdentifier
        tokenAddress symbol decimals amount strategyOption dryRun ps
        cache).1.length = ps.length) ∧
    (((transferUnitsLoop ctx env chainId chainConfig toAddress toIdentifier
        tokenAddress symbol decimals amount strategyOption dryRun ps
        cache).1.map TransferResultModel.fromParty) = ps) ∧
    ((executeSingleTransfer ctx env chainId chainConfig p.address
        p.identifier toAddress toIdentifier tokenAddress symbol decimals
        amount strategyOption dryRun cache).1 = .error t →
      (transferUnitsLoop ctx env chainId chainConfig toAddress toIdentifier
          tokenAddress symbol decimals amount strategyOption dryRun
          (p :: ps) cache).1 =
        TransferResultModel.failure p ⟨toIdentifier, toAddress⟩ t.toCode
            t.toMessage ::
          (transferUnitsLoop ctx env chainId chainConfig toAddress
            toIdentifier tokenAddress symbol decimals amount strategyOption
            dryRun ps
            (executeSingleTransfer ctx env chainId chainConfig p.address
              p.identifier toAddress toIdentifier tokenAddress symbol
              decimals amount strategyOption dryRun cache).2.1).1) ∧
    (∀ e, (executeTransferPrep isAddr ctx env options).1 = .error e →
      (executeTransfer isAddr ctx env options cache0).1 =
        some (TransferResultModel.failure
          ⟨options.fromO, fallbackAddress
            (parseAddressSpec isAddr options.fromO ctx.config.wallets)⟩
          ⟨options.toO, fallbackAddress
            (parseAddressSpec isAddr options.toO ctx.config.wallets)⟩
          e.code e.message)) := by
  refine ⟨transferUnitsLoop_length ctx env chainId chainConfig toAddress
    toIdentifier tokenAddress symbol decimals amount strategyOption dryRun
    ps cache,
    transferUnitsLoop_fromParty ctx env chainId chainConfig toAddress
    toIdentifier tokenAddress symbol decimals amount strategyOption dryRun
    ps cache, ?_, ?_⟩
  · intro ht
    simp only [transferUnitsLoop]
    rw [ht]
  · intro e he
    unfold executeTransfer
    rcases hpp : executeTransferPrep isAddr ctx env options with ⟨res, tr⟩
    rw [hpp] at he
    simp only at he
    subst he
    rfl

/-- Witness for C8: a two-address batch where the first unit fails with
WALLET_KEY_NOT_FOUND (no signer for a non-numeric identifier) and the
second is still processed, plus the pre-loop CHAIN_NOT_FOUND catch. -/
theorem C8_failure_isolation_witness :
    ((transferUnitsLoop witCtx witEnv "eip155:1" none "0xhot" "hot"
        witToken "TOK" 6 Amount.all none true
        [⟨"0", "0xaddr0"⟩, ⟨"1", "0xaddr1"⟩] []).1.map
      TransferResultModel.fromParty) =
      [⟨"0", "0xaddr0"⟩, ⟨"1", "0xaddr1"⟩] ∧
    (executeTransfer (fun _ => false) witCtx witEnv
        ⟨"0", "hot", "nochain", "TOK", Amount.all, none, true⟩ []).1 =
      some (TransferResultModel.failure ⟨"0", "0x0"⟩ ⟨"hot", "0x0"⟩
        ErrorCode.CHAIN_NOT_FOUND "Chain not found: nochain") := by
  have h := C8_failure_isolation (fun _ => false) witCtx witEnv "eip155:1"
    none "0xhot" "hot" witToken "TOK" 6 Amount.all none true
    [⟨"0", "0xaddr0"⟩, ⟨"1", "0xaddr1"⟩] [] ⟨"0", "0xaddr0"⟩
    (ThrownError.hs ⟨.WALLET_KEY_NOT_FOUND, ""⟩)
    ⟨"0", "hot", "nochain", "TOK", Amount.all, none, true⟩ []
  exact ⟨h.2.1, h.2.2.2 ⟨.CHAIN_NOT_FOUND, "Chain not found: nochain"⟩
    (by rfl)⟩

end HotSweep
